import Mathlib

/-!
Verification of the Simplex UI tree-model layer
(`src/scripts/SimplexUI/interfaceModel.py`).

The domain objects (declared in `interfaceItems.py`, outside this
snapshot) form a fixed hierarchy: a `Simplex` root owning slider /
combo / traversal groups, each group owning controls, each control
owning a progression of weighted shape pairs, combos additionally
owning weighted `ComboPair`s and traversals owning two `TravPair`
slots.  We embed the domain graph as plain Lean structures and embed
an *item* as a path into that graph, mirroring Python object identity:
two live domain objects are the same object exactly when they sit at
the same place of the graph.

The model functions (`getChildItem`, `getItemRow`, `getParentItem`,
`getItemRowCount`, `getItemAppendRow`, `setData`, the context-manager
mutation brackets, the filter proxies and the falloff model) are then
translated function-by-function from the source.
-/

namespace SimplexUI

/-- One weighted shape target of a progression (`ProgPair`): the shape's
name, its numeric weight and the shape's rest flag (`pair.shape.isRest`). -/
structure ProgPairD where
  name : String
  value : Int
  isRest : Bool
deriving DecidableEq, Repr

/-- A progression (`Progression`): named, with ordered shape pairs and the
list of falloffs (by identifier) attached to it. -/
structure Prog where
  name : String
  pairs : List ProgPairD
  falloffs : List Nat
deriving DecidableEq, Repr

/-- A slider control. -/
structure SliderD where
  name : String
  value : Int
  enabled : Bool
  prog : Prog
deriving DecidableEq, Repr

/-- One weighted (slider, value) pair inside a combo (`ComboPair`).
The referenced slider is identified by a numeric id. -/
structure ComboPairD where
  name : String
  slider : Nat
  value : Int
deriving DecidableEq, Repr

/-- A combo control: weighted input pairs plus one progression. -/
structure ComboD where
  name : String
  enabled : Bool
  pairs : List ComboPairD
  prog : Prog
deriving DecidableEq, Repr

/-- One traversal link slot (`TravPair`). -/
structure TravPairD where
  name : String
  value : Int
  usage : String
deriving DecidableEq, Repr

/-- A traversal control: exactly two fixed link slots plus one progression. -/
structure TravD where
  name : String
  enabled : Bool
  progressCtrl : TravPairD
  multiplierCtrl : TravPairD
  prog : Prog
deriving DecidableEq, Repr

/-- A named bucket of controls of one kind (`Group`). -/
structure GroupOf (α : Type) where
  name : String
  items : List α
deriving DecidableEq, Repr

/-- The root rig object (`Simplex`): three parallel ordered group
collections, one per control kind. -/
structure SimplexD where
  name : String
  sliderGroups : List (GroupOf SliderD)
  comboGroups : List (GroupOf ComboD)
  traversalGroups : List (GroupOf TravD)
deriving DecidableEq, Repr

/-- Reference to a control: the group-local index of its group within the
collection for its kind, and its position inside that group. -/
inductive Ctrl where
  | slider (gi si : Nat)
  | combo (gi ci : Nat)
  | trav (gi ti : Nat)
deriving DecidableEq, Repr

/-- The two fixed link slots of a traversal. -/
inductive TravSlot where
  | progress
  | multiplier
deriving DecidableEq, Repr

/-- A path to a domain item.  Group paths use the *concatenated* group
index (sliderGroups ++ comboGroups ++ traversalGroups), matching how
`SimplexModel.getChildItem` enumerates groups; control paths use the
kind-local group index. -/
inductive Item where
  | simplexItem
  | groupItem (g : Nat)
  | ctrlItem (c : Ctrl)
  | comboPairItem (gi ci pi : Nat)
  | travPairItem (gi ti : Nat) (slot : TravSlot)
  | progressionItem (c : Ctrl)
  | progPairItem (c : Ctrl) (pi : Nat)
deriving DecidableEq, Repr

def SimplexD.numGroups (S : SimplexD) : Nat :=
  S.sliderGroups.length + S.comboGroups.length + S.traversalGroups.length

/-- Dereference a slider path. -/
def lookupSlider (S : SimplexD) (gi si : Nat) : Option SliderD :=
  (S.sliderGroups.get? gi).bind fun g => g.items.get? si

/-- Dereference a combo path. -/
def lookupCombo (S : SimplexD) (gi ci : Nat) : Option ComboD :=
  (S.comboGroups.get? gi).bind fun g => g.items.get? ci

/-- Dereference a traversal path. -/
def lookupTrav (S : SimplexD) (gi ti : Nat) : Option TravD :=
  (S.traversalGroups.get? gi).bind fun g => g.items.get? ti

/-- The progression owned by a control (`ctrl.prog`). -/
def ctrlProg (S : SimplexD) : Ctrl → Option Prog
  | .slider gi si => (lookupSlider S gi si).map fun sl => sl.prog
  | .combo gi ci => (lookupCombo S gi ci).map fun cb => cb.prog
  | .trav gi ti => (lookupTrav S gi ti).map fun tv => tv.prog

/-- Number of members of the group at concatenated index `g`, 0 when the
index dereferences to no group. -/
def groupSize (S : SimplexD) (g : Nat) : Nat :=
  if g < S.sliderGroups.length then
    ((S.sliderGroups.get? g).map fun gr => gr.items.length).getD 0
  else if g < S.sliderGroups.length + S.comboGroups.length then
    ((S.comboGroups.get? (g - S.sliderGroups.length)).map fun gr => gr.items.length).getD 0
  else
    ((S.traversalGroups.get? (g - S.sliderGroups.length - S.comboGroups.length)).map
      fun gr => gr.items.length).getD 0

/-- Modelled from the spec: `TravPair.usageIndex` lives in
`interfaceItems.py`, which is not part of this snapshot.  The spec fixes
the traversal child slots in the order progress-link, multiplier-link,
Progression at rows 0, 1, 2, so the usage index of the progress slot is 0
and of the multiplier slot is 1. -/
def usageIndex : TravSlot → Nat
  | .progress => 0
  | .multiplier => 1

/-- `SimplexModel.getChildItem`: the child of `parent` at `row`.  A `none`
parent is the null-index sentinel whose single child is the simplex root.
Out-of-range rows (Python `IndexError`) yield `none`, as do paths that
dereference to no object. -/
def getChildItem (S : SimplexD) : Option Item → Nat → Option Item
  | none, row => if row = 0 then some Item.simplexItem else none
  | some Item.simplexItem, row =>
      if row < S.numGroups then some (Item.groupItem row) else none
  | some (Item.groupItem g), row =>
      if g < S.sliderGroups.length then
        match S.sliderGroups.get? g with
        | some gr => if row < gr.items.length then some (Item.ctrlItem (Ctrl.slider g row)) else none
        | none => none
      else if g < S.sliderGroups.length + S.comboGroups.length then
        match S.comboGroups.get? (g - S.sliderGroups.length) with
        | some gr =>
            if row < gr.items.length then
              some (Item.ctrlItem (Ctrl.combo (g - S.sliderGroups.length) row))
            else none
        | none => none
      else
        match S.traversalGroups.get? (g - S.sliderGroups.length - S.comboGroups.length) with
        | some gr =>
            if row < gr.items.length then
              some (Item.ctrlItem (Ctrl.trav (g - S.sliderGroups.length - S.comboGroups.length) row))
            else none
        | none => none
  | some (Item.ctrlItem (Ctrl.slider gi si)), row =>
      match lookupSlider S gi si with
      | some sl =>
          if row < sl.prog.pairs.length then some (Item.progPairItem (Ctrl.slider gi si) row)
          else none
      | none => none
  | some (Item.ctrlItem (Ctrl.combo gi ci)), row =>
      match lookupCombo S gi ci with
      | some cb =>
          if row = cb.pairs.length then some (Item.progressionItem (Ctrl.combo gi ci))
          else if row < cb.pairs.length then some (Item.comboPairItem gi ci row)
          else none
      | none => none
  | some (Item.ctrlItem (Ctrl.trav gi ti)), row =>
      match lookupTrav S gi ti with
      | some _ =>
          if row = 0 then some (Item.travPairItem gi ti TravSlot.progress)
          else if row = 1 then some (Item.travPairItem gi ti TravSlot.multiplier)
          else if row = 2 then some (Item.progressionItem (Ctrl.trav gi ti))
          else none
      | none => none
  | some (Item.progressionItem c), row =>
      match ctrlProg S c with
      | some pr =>
          if row < pr.pairs.length then some (Item.progPairItem c row) else none
      | none => none
  | some (Item.comboPairItem _ _ _), _ => none
  | some (Item.travPairItem _ _ _), _ => none
  | some (Item.progPairItem _ _), _ => none

/-- `SimplexModel.getItemRow`: the row of an item among its siblings.
Detached / dangling paths degrade to `none` (Python catches `ValueError`
and `AttributeError`).  Note the source computes the row of a Combo's
progression as `len(item.pairs)` — the length of the *progression's own*
pair list, not the combo's pair list. -/
def getItemRow (S : SimplexD) : Item → Option Nat
  | Item.simplexItem => some 0
  | Item.groupItem g => if g < S.numGroups then some g else none
  | Item.ctrlItem (Ctrl.slider gi si) =>
      match lookupSlider S gi si with
      | some _ => some si
      | none => none
  | Item.ctrlItem (Ctrl.combo gi ci) =>
      match lookupCombo S gi ci with
      | some _ => some ci
      | none => none
  | Item.ctrlItem (Ctrl.trav gi ti) =>
      match lookupTrav S gi ti with
      | some _ => some ti
      | none => none
  | Item.comboPairItem gi ci pi =>
      match lookupCombo S gi ci with
      | some cb => if pi < cb.pairs.length then some pi else none
      | none => none
  | Item.travPairItem gi ti slot =>
      match lookupTrav S gi ti with
      | some _ => some (usageIndex slot)
      | none => none
  | Item.progressionItem c =>
      match c with
      | Ctrl.slider gi si => (lookupSlider S gi si).map fun sl => sl.prog.pairs.length
      | Ctrl.combo gi ci => (lookupCombo S gi ci).map fun cb => cb.prog.pairs.length
      | Ctrl.trav gi ti => (lookupTrav S gi ti).map fun _ => 2
  | Item.progPairItem c pi =>
      match ctrlProg S c with
      | some pr => if pi < pr.pairs.length then some pi else none
      | none => none

/-- `SimplexModel.getParentItem`: the parent of an item, `none` for the
root (and for dangling paths, which denote no live object). A `ProgPair`
whose progression is owned by a slider reports the slider itself as its
parent. -/
def getParentItem (S : SimplexD) : Item → Option Item
  | Item.simplexItem => none
  | Item.groupItem g => if g < S.numGroups then some Item.simplexItem else none
  | Item.ctrlItem (Ctrl.slider gi si) =>
      if (lookupSlider S gi si).isSome then some (Item.groupItem gi) else none
  | Item.ctrlItem (Ctrl.combo gi ci) =>
      if (lookupCombo S gi ci).isSome then some (Item.groupItem (S.sliderGroups.length + gi))
      else none
  | Item.ctrlItem (Ctrl.trav gi ti) =>
      if (lookupTrav S gi ti).isSome then
        some (Item.groupItem (S.sliderGroups.length + S.comboGroups.length + gi))
      else none
  | Item.comboPairItem gi ci pi =>
      match lookupCombo S gi ci with
      | some cb => if pi < cb.pairs.length then some (Item.ctrlItem (Ctrl.combo gi ci)) else none
      | none => none
  | Item.travPairItem gi ti _ =>
      if (lookupTrav S gi ti).isSome then some (Item.ctrlItem (Ctrl.trav gi ti)) else none
  | Item.progressionItem c =>
      if (ctrlProg S c).isSome then some (Item.ctrlItem c) else none
  | Item.progPairItem c pi =>
      match ctrlProg S c with
      | some pr =>
          if pi < pr.pairs.length then
            match c with
            | Ctrl.slider gi si => some (Item.ctrlItem (Ctrl.slider gi si))
            | _ => some (Item.progressionItem c)
          else none
      | none => none

/-- `SimplexModel.getItemRowCount`: the child count of an item
(`none` is the null-index sentinel with the single synthetic root row). -/
def getItemRowCount (S : SimplexD) : Option Item → Nat
  | none => 1
  | some Item.simplexItem => S.numGroups
  | some (Item.groupItem g) => groupSize S g
  | some (Item.ctrlItem (Ctrl.slider gi si)) =>
      ((lookupSlider S gi si).map fun sl => sl.prog.pairs.length).getD 0
  | some (Item.ctrlItem (Ctrl.combo gi ci)) =>
      ((lookupCombo S gi ci).map fun cb => cb.pairs.length + 1).getD 0
  | some (Item.ctrlItem (Ctrl.trav gi ti)) =>
      ((lookupTrav S gi ti).map fun _ => 3).getD 0
  | some (Item.comboPairItem _ _ _) => 0
  | some (Item.travPairItem _ _ _) => 0
  | some (Item.progressionItem c) =>
      ((ctrlProg S c).map fun pr => pr.pairs.length).getD 0
  | some (Item.progPairItem _ _) => 0

/-- `SimplexModel.getItemAppendRow`: the row used for appending a new
child; for a Combo the insertion lands before the trailing progression
slot. -/
def getItemAppendRow (S : SimplexD) (item : Item) : Nat :=
  match item with
  | Item.ctrlItem (Ctrl.combo gi ci) =>
      ((lookupCombo S gi ci).map fun cb => cb.pairs.length).getD 0
  | _ => getItemRowCount S (some item)

/-! ### A small concrete rig used as a test vehicle -/

/-- A progression holding two shape pairs (a rest shape and one target),
the typical shape of a freshly authored combo progression. -/
def bugProg : Prog :=
  { name := "cmbShapes"
    pairs := [{ name := "restShape", value := 0, isRest := true },
              { name := "cmbShape", value := 1, isRest := false }]
    falloffs := [] }

/-- A combo with a single weighted input pair whose progression holds two
shape pairs: the pair count (1) and the progression's own pair count (2)
differ. -/
def bugCombo : ComboD :=
  { name := "cmb", enabled := true
    pairs := [{ name := "cmbPair", slider := 7, value := 1 }]
    prog := bugProg }

/-- A rig with a single combo group holding `bugCombo`. -/
def bugS : SimplexD :=
  { name := "rig"
    sliderGroups := []
    comboGroups := [{ name := "cmbGroup", items := [bugCombo] }]
    traversalGroups := [] }

/-- **C1.** The parent/child/row lookups are claimed to be mutual inverses
on every reachable item.  The code violates this: `getItemRow` computes
the row of a Combo's progression from the progression's *own* pair count
(`len(item.pairs)`) instead of the combo's pair count, so for a combo
with 1 weighted pair whose progression holds 2 shape pairs the reachable
progression (child of the combo at row 1) reports row 2, and
`getChildItem(getParentItem(prog), getItemRow(prog))` is the invalid
sentinel rather than the progression. -/
theorem c1_combo_progression_row_bug :
    getChildItem bugS none 0 = some Item.simplexItem ∧
    getChildItem bugS (some Item.simplexItem) 0 = some (Item.groupItem 0) ∧
    getChildItem bugS (some (Item.groupItem 0)) 0 = some (Item.ctrlItem (Ctrl.combo 0 0)) ∧
    getChildItem bugS (some (Item.ctrlItem (Ctrl.combo 0 0))) 1 =
      some (Item.progressionItem (Ctrl.combo 0 0)) ∧
    getParentItem bugS (Item.progressionItem (Ctrl.combo 0 0)) =
      some (Item.ctrlItem (Ctrl.combo 0 0)) ∧
    getItemRow bugS (Item.progressionItem (Ctrl.combo 0 0)) = some 2 ∧
    getChildItem bugS (some (Item.ctrlItem (Ctrl.combo 0 0))) 2 = none :=
  ⟨rfl, rfl, rfl, rfl, rfl, rfl, rfl⟩

/-- **C2.** For every combo with `N` weighted pairs: its child count is
`N + 1`, its child at row `N` is its progression, the children at rows
`0 .. N-1` are its pairs in list order, and `getItemAppendRow` is `N`
(so a newly inserted pair lands before the trailing progression slot). -/
theorem c2_combo_children (S : SimplexD) (gi ci : Nat) (cb : ComboD)
    (h : lookupCombo S gi ci = some cb) :
    getItemRowCount S (some (Item.ctrlItem (Ctrl.combo gi ci))) = cb.pairs.length + 1 ∧
    getChildItem S (some (Item.ctrlItem (Ctrl.combo gi ci))) cb.pairs.length =
      some (Item.progressionItem (Ctrl.combo gi ci)) ∧
    (∀ r, r < cb.pairs.length →
      getChildItem S (some (Item.ctrlItem (Ctrl.combo gi ci))) r =
        some (Item.comboPairItem gi ci r)) ∧
    getItemAppendRow S (Item.ctrlItem (Ctrl.combo gi ci)) = cb.pairs.length := by
  refine ⟨?_, ?_, ?_, ?_⟩
  · simp [getItemRowCount, h]
  · simp [getChildItem, h]
  · intro r hr
    simp [getChildItem, h, Nat.ne_of_lt hr, hr]
  · simp [getItemAppendRow, h]

/-- Witness for C2 on the concrete rig `bugS`. -/
theorem c2_combo_children_witness :
    getItemRowCount bugS (some (Item.ctrlItem (Ctrl.combo 0 0))) = 2 ∧
    getChildItem bugS (some (Item.ctrlItem (Ctrl.combo 0 0))) 1 =
      some (Item.progressionItem (Ctrl.combo 0 0)) ∧
    getChildItem bugS (some (Item.ctrlItem (Ctrl.combo 0 0))) 0 =
      some (Item.comboPairItem 0 0 0) ∧
    getItemAppendRow bugS (Item.ctrlItem (Ctrl.combo 0 0)) = 1 := by
  obtain ⟨h1, h2, h3, h4⟩ := c2_combo_children bugS 0 0 bugCombo rfl
  exact ⟨h1, h2, h3 0 (by decide), h4⟩

/-! ### Transactional mutation brackets (`ContextModel`) -/

/-- The begin/end structural-change signals of the view framework. -/
inductive Sig where
  | beginInsertRows (parent : Option Item) (first last : Nat)
  | endInsertRows
  | beginRemoveRows (parent : Option Item) (first last : Nat)
  | endRemoveRows
  | beginMoveRows (srcParent : Option Item) (first last : Nat)
      (destParent : Option Item) (destRow : Nat)
  | endMoveRows
  | beginResetModel
  | endResetModel
deriving DecidableEq, Repr

/-- One observable event of a bracket run: a signal emission or the
caller's mutation executing inside the bracket (`ok` records whether the
mutation succeeded or raised). -/
inductive Ev where
  | sig (s : Sig)
  | mutation (ok : Bool)
deriving DecidableEq, Repr

/-- `ContextModel.indexFromItem` reduced to the data the brackets need:
the item is resolvable to a valid index exactly when `getItemRow` gives a
row. -/
def indexResolvable (S : SimplexD) (item : Item) : Bool :=
  (getItemRow S item).isSome

/-- `QModelIndex.parent()` of an item's index: the parent item when it and
its own row resolve, the invalid sentinel otherwise
(`SimplexModel.parent`). -/
def parentIndexItem (S : SimplexD) (item : Item) : Option Item :=
  match getParentItem S item with
  | none => none
  | some p =>
      match getItemRow S p with
      | none => none
      | some _ => some p

/-- `ContextModel.insertItemManager` as an event trace: resolve the
parent's index; when valid, emit `beginInsertRows` (destination row
defaulting to `getItemAppendRow`), run the caller's mutation, and emit
`endInsertRows` from the `finally` block; when invalid, the mutation
still runs with no signals.  The second component is whether an error
propagates to the caller (the bracket never swallows one). -/
def insertItemManagerRun (S : SimplexD) (parent : Item) (row : Int)
    (mutationOk : Bool) : List Ev × Bool :=
  match getItemRow S parent with
  | none => ([Ev.mutation mutationOk], !mutationOk)
  | some _ =>
      let r : Nat := if row = -1 then getItemAppendRow S parent else row.toNat
      ([Ev.sig (Sig.beginInsertRows (some parent) r r),
        Ev.mutation mutationOk,
        Ev.sig Sig.endInsertRows], !mutationOk)

/-- `ContextModel.removeItemManager` as an event trace. -/
def removeItemManagerRun (S : SimplexD) (item : Item) (mutationOk : Bool) :
    List Ev × Bool :=
  match getItemRow S item with
  | none => ([Ev.mutation mutationOk], !mutationOk)
  | some r =>
      ([Ev.sig (Sig.beginRemoveRows (parentIndexItem S item) r r),
        Ev.mutation mutationOk,
        Ev.sig Sig.endRemoveRows], !mutationOk)

/-- `ContextModel.moveItemManager` as an event trace: a structural signal
is emitted only when both the moved item's index and the destination
parent's index resolve. -/
def moveItemManagerRun (S : SimplexD) (item destPar : Item) (destRow : Int)
    (mutationOk : Bool) : List Ev × Bool :=
  match getItemRow S item, getItemRow S destPar with
  | some r, some _ =>
      let dr : Nat := if destRow = -1 then getItemAppendRow S destPar else destRow.toNat
      ([Ev.sig (Sig.beginMoveRows (parentIndexItem S item) r r (some destPar) dr),
        Ev.mutation mutationOk,
        Ev.sig Sig.endMoveRows], !mutationOk)
  | _, _ => ([Ev.mutation mutationOk], !mutationOk)

/-- `ContextModel.resetModelManager` as an event trace: unconditional
begin/end reset around the mutation. -/
def resetModelManagerRun (mutationOk : Bool) : List Ev × Bool :=
  ([Ev.sig Sig.beginResetModel, Ev.mutation mutationOk, Ev.sig Sig.endResetModel],
   !mutationOk)

def Ev.isBeginInsert : Ev → Bool
  | Ev.sig (Sig.beginInsertRows _ _ _) => true
  | _ => false

def Ev.isBeginRemove : Ev → Bool
  | Ev.sig (Sig.beginRemoveRows _ _ _) => true
  | _ => false

def Ev.isBeginMove : Ev → Bool
  | Ev.sig (Sig.beginMoveRows _ _ _ _ _) => true
  | _ => false

def Ev.isBeginReset : Ev → Bool
  | Ev.sig Sig.beginResetModel => true
  | _ => false

def Ev.isMutation : Ev → Bool
  | Ev.mutation _ => true
  | _ => false

/-- **C3.** An insert bracket whose parent has no resolvable index, and a
move bracket where the moved item's or the destination parent's index
does not resolve, are no-op passthroughs: the caller's mutation still
executes but no begin/end structural signal fires. -/
theorem c3_invalid_index_brackets_passthrough :
    (∀ (S : SimplexD) (parent : Item) (row : Int) (ok : Bool),
      getItemRow S parent = none →
      insertItemManagerRun S parent row ok = ([Ev.mutation ok], !ok)) ∧
    (∀ (S : SimplexD) (item destPar : Item) (destRow : Int) (ok : Bool),
      getItemRow S item = none ∨ getItemRow S destPar = none →
      moveItemManagerRun S item destPar destRow ok = ([Ev.mutation ok], !ok)) := by
  constructor
  · intro S parent row ok h
    simp [insertItemManagerRun, h]
  · intro S item destPar destRow ok h
    rcases h with h | h
    · simp [moveItemManagerRun, h]
    · rw [moveItemManagerRun]
      rcases hr : getItemRow S item with _ | r <;> simp [h]

/-- Witness for C3: in `bugS` there is no slider, so the slider path
`(0,0)` has no resolvable index, while the combo path `(0,0)` does. -/
theorem c3_invalid_index_brackets_passthrough_witness :
    insertItemManagerRun bugS (Item.ctrlItem (Ctrl.slider 0 0)) (-1) true =
      ([Ev.mutation true], false) ∧
    moveItemManagerRun bugS (Item.ctrlItem (Ctrl.combo 0 0))
        (Item.ctrlItem (Ctrl.slider 0 0)) (-1) false =
      ([Ev.mutation false], true) :=
  ⟨c3_invalid_index_brackets_passthrough.1 bugS (Item.ctrlItem (Ctrl.slider 0 0)) (-1) true rfl,
   c3_invalid_index_brackets_passthrough.2 bugS (Item.ctrlItem (Ctrl.combo 0 0))
     (Item.ctrlItem (Ctrl.slider 0 0)) (-1) false (Or.inr rfl)⟩

/-- **C4.** For each of the four brackets: whenever the begin signal
fired, the matching end signal also fires as the final event of the run —
in particular on the error exit path, after the mutation attempt — and
an error raised by the caller's mutation propagates (the second
component is `true` exactly when the mutation failed). -/
theorem c4_end_signal_always_fires :
    (∀ (S : SimplexD) (parent : Item) (row : Int) (ok : Bool),
      ((insertItemManagerRun S parent row ok).1.any Ev.isBeginInsert →
        (insertItemManagerRun S parent row ok).1.getLast? = some (Ev.sig Sig.endInsertRows)) ∧
      Ev.mutation ok ∈ (insertItemManagerRun S parent row ok).1 ∧
      (insertItemManagerRun S parent row ok).2 = !ok) ∧
    (∀ (S : SimplexD) (item : Item) (ok : Bool),
      ((removeItemManagerRun S item ok).1.any Ev.isBeginRemove →
        (removeItemManagerRun S item ok).1.getLast? = some (Ev.sig Sig.endRemoveRows)) ∧
      Ev.mutation ok ∈ (removeItemManagerRun S item ok).1 ∧
      (removeItemManagerRun S item ok).2 = !ok) ∧
    (∀ (S : SimplexD) (item destPar : Item) (destRow : Int) (ok : Bool),
      ((moveItemManagerRun S item destPar destRow ok).1.any Ev.isBeginMove →
        (moveItemManagerRun S item destPar destRow ok).1.getLast? =
          some (Ev.sig Sig.endMoveRows)) ∧
      Ev.mutation ok ∈ (moveItemManagerRun S item destPar destRow ok).1 ∧
      (moveItemManagerRun S item destPar destRow ok).2 = !ok) ∧
    (∀ ok : Bool,
      ((resetModelManagerRun ok).1.any Ev.isBeginReset →
        (resetModelManagerRun ok).1.getLast? = some (Ev.sig Sig.endResetModel)) ∧
      Ev.mutation ok ∈ (resetModelManagerRun ok).1 ∧
      (resetModelManagerRun ok).2 = !ok) := by
  refine ⟨?_, ?_, ?_, ?_⟩
  · intro S parent row ok
    rw [insertItemManagerRun]
    rcases getItemRow S parent with _ | r <;> simp [Ev.isBeginInsert]
  · intro S item ok
    rw [removeItemManagerRun]
    rcases getItemRow S item with _ | r <;> simp [Ev.isBeginRemove]
  · intro S item destPar destRow ok
    rw [moveItemManagerRun]
    rcases getItemRow S item with _ | r <;> rcases getItemRow S destPar with _ | r2 <;>
      simp [Ev.isBeginMove]
  · intro ok
    simp [resetModelManagerRun, Ev.isBeginReset]

/-- Witness for C4: a failing mutation inside an insert bracket on a
resolvable parent still ends with `endInsertRows`, and the error
propagates. -/
theorem c4_end_signal_always_fires_witness :
    (insertItemManagerRun bugS (Item.ctrlItem (Ctrl.combo 0 0)) (-1) false).1.getLast? =
      some (Ev.sig Sig.endInsertRows) ∧
    (insertItemManagerRun bugS (Item.ctrlItem (Ctrl.combo 0 0)) (-1) false).2 = true :=
  ⟨(c4_end_signal_always_fires.1 bugS (Item.ctrlItem (Ctrl.combo 0 0)) (-1) false).1
      (by decide),
   (c4_end_signal_always_fires.1 bugS (Item.ctrlItem (Ctrl.combo 0 0)) (-1) false).2.2⟩

/-! ### The regex fragment used by `SimplexFilterModel`

`filterString`'s setter compiles each whitespace token with Python `re`:
verbatim when the token starts with `*`, otherwise the token's characters
interposed with lazy any-character spans (`'.*?'.join(sp)`), always with
`re.I`.  We embed exactly the fragment of `re` syntax those patterns can
contain — literals, `.`, the `*` quantifier, laziness / optionality via
`?` — including `re`'s compile-time rejection of a quantifier that
follows no atom or another quantifier ("nothing to repeat" / "multiple
repeat"), which `Option` models as `none`. -/

/-- A single regex atom: a literal character or `.`. -/
inductive RAtom where
  | lit (c : Char)
  | dot
deriving DecidableEq, Repr

/-- A regex piece: one atom, a (possibly lazy) starred atom, or an
optional atom. -/
inductive RPiece where
  | once (a : RAtom)
  | star (a : RAtom) (lazy : Bool)
  | opt (a : RAtom)
deriving DecidableEq, Repr

/-- Parse the pattern fragment; `none` models an `re.error` raised at
compile time. -/
def parseRegexAux : List Char → List RPiece → Option (List RPiece)
  | [], acc => some acc.reverse
  | c :: rest, acc =>
      if c = '*' then
        match acc with
        | RPiece.once a :: tacc => parseRegexAux rest (RPiece.star a false :: tacc)
        | _ => none
      else if c = '?' then
        match acc with
        | RPiece.star a false :: tacc => parseRegexAux rest (RPiece.star a true :: tacc)
        | RPiece.once a :: tacc => parseRegexAux rest (RPiece.opt a :: tacc)
        | _ => none
      else if c = '.' then parseRegexAux rest (RPiece.once RAtom.dot :: acc)
      else parseRegexAux rest (RPiece.once (RAtom.lit c) :: acc)

def parseRegex (s : List Char) : Option (List RPiece) :=
  parseRegexAux s []

/-- Case-insensitive atom match (all the model's patterns carry `re.I`). -/
def atomMatch : RAtom → Char → Bool
  | RAtom.lit c, d => c.toLower = d.toLower
  | RAtom.dot, _ => true

/-- Anchored matching of a piece list against a prefix of the input.
Laziness never changes whether *some* match exists, so the boolean
matcher ignores the lazy flag.  The recursion consumes either a piece or
an input character at every step, so `ps.length + s.length + 1` steps of
fuel always suffice; the fuel argument only makes the recursion
structural. -/
def matchHereF : Nat → List RPiece → List Char → Bool
  | 0, _, _ => false
  | _ + 1, [], _ => true
  | fuel + 1, RPiece.once a :: ps, s =>
      match s with
      | [] => false
      | c :: cs => atomMatch a c && matchHereF fuel ps cs
  | fuel + 1, RPiece.opt a :: ps, s =>
      matchHereF fuel ps s ||
        (match s with
         | [] => false
         | c :: cs => atomMatch a c && matchHereF fuel ps cs)
  | fuel + 1, RPiece.star a lz :: ps, s =>
      matchHereF fuel ps s ||
        (match s with
         | [] => false
         | c :: cs => atomMatch a c && matchHereF fuel (RPiece.star a lz :: ps) cs)

def matchHere (ps : List RPiece) (s : List Char) : Bool :=
  matchHereF (ps.length + s.length + 1) ps s

/-- `reg.search(itemString)`: anchored match at some start position. -/
def rsearch (ps : List RPiece) (s : List Char) : Bool :=
  matchHere ps s ||
    match s with
    | [] => false
    | _ :: rest => rsearch ps rest

/-- `'.*?'.join(sp)`: the characters of the token interposed with lazy
any-character spans. -/
def fuzzyPattern : List Char → List Char
  | [] => []
  | c :: rest => c :: rest.flatMap fun d => ['.', '*', '?', d]

/-- Compile one filter token as the `filterString` setter does: verbatim
when it starts with `*`, else the fuzzy interposition. -/
def compileToken (tok : List Char) : Option (List RPiece) :=
  match tok with
  | [] => none
  | c :: rest =>
      if c = '*' then parseRegex (c :: rest)
      else parseRegex (fuzzyPattern (c :: rest))

/-- The mutable state of a `SimplexFilterModel`: the split filter tokens
(`_filterString`), their compiled regexes (`_filterReg`) and the isolate
list. -/
structure FilterState where
  tokens : List String
  regs : List (List RPiece)
  isolateList : List String
deriving DecidableEq, Repr

/-- Python `str.split()`: split on whitespace runs, dropping empties.
(The accumulator holds the current token reversed.) -/
def splitWSAux : List Char → List Char → List String
  | [], cur => if cur = [] then [] else [String.mk cur.reverse]
  | c :: rest, cur =>
      if c.isWhitespace then
        if cur = [] then splitWSAux rest []
        else String.mk cur.reverse :: splitWSAux rest []
      else splitWSAux rest (c :: cur)

def splitTokens (v : String) : List String :=
  splitWSAux v.toList []

/-- The `filterString` setter; `none` models the `re.error` escaping it. -/
def setFilterString (st : FilterState) (v : String) : Option FilterState :=
  let toks := splitTokens v
  match toks.mapM fun t => compileToken t.toList with
  | none => none
  | some regs => some { st with tokens := toks, regs := regs }

/-- `SimplexFilterModel.matchFilterString`. -/
def matchFilterString (st : FilterState) (itemString : String) : Bool :=
  if st.tokens = [] then true
  else st.regs.any fun r => rsearch r itemString.toList

/-- `SimplexFilterModel.matchIsolation`. -/
def matchIsolation (st : FilterState) (itemString : String) : Bool :=
  if st.isolateList = [] then true
  else st.isolateList.contains itemString

/-- The name of the group at concatenated index `g`. -/
def groupName (S : SimplexD) (g : Nat) : String :=
  if g < S.sliderGroups.length then
    ((S.sliderGroups.get? g).map fun gr => gr.name).getD ""
  else if g < S.sliderGroups.length + S.comboGroups.length then
    ((S.comboGroups.get? (g - S.sliderGroups.length)).map fun gr => gr.name).getD ""
  else
    ((S.traversalGroups.get? (g - S.sliderGroups.length - S.comboGroups.length)).map
      fun gr => gr.name).getD ""

/-- The traversal pair sitting in a given slot. -/
def travSlotPair (tv : TravD) : TravSlot → TravPairD
  | TravSlot.progress => tv.progressCtrl
  | TravSlot.multiplier => tv.multiplierCtrl

/-- `item.name` for each item kind (the spec's domain-object contract
exposes a name on every item). -/
def itemName (S : SimplexD) : Item → String
  | Item.simplexItem => S.name
  | Item.groupItem g => groupName S g
  | Item.ctrlItem (Ctrl.slider gi si) =>
      ((lookupSlider S gi si).map fun sl => sl.name).getD ""
  | Item.ctrlItem (Ctrl.combo gi ci) =>
      ((lookupCombo S gi ci).map fun cb => cb.name).getD ""
  | Item.ctrlItem (Ctrl.trav gi ti) =>
      ((lookupTrav S gi ti).map fun tv => tv.name).getD ""
  | Item.comboPairItem gi ci pi =>
      (((lookupCombo S gi ci).bind fun cb => cb.pairs.get? pi).map fun p => p.name).getD ""
  | Item.travPairItem gi ti slot =>
      ((lookupTrav S gi ti).map fun tv => (travSlotPair tv slot).name).getD ""
  | Item.progressionItem c =>
      ((ctrlProg S c).map fun pr => pr.name).getD ""
  | Item.progPairItem c pi =>
      (((ctrlProg S c).bind fun pr => pr.pairs.get? pi).map fun p => p.name).getD ""

/-- Depth rank of an item kind: every child returned by `getChildItem`
has a strictly smaller rank than its parent. -/
def itemRank : Item → Nat
  | Item.simplexItem => 5
  | Item.groupItem _ => 4
  | Item.ctrlItem _ => 3
  | Item.comboPairItem _ _ _ => 2
  | Item.travPairItem _ _ _ => 2
  | Item.progressionItem _ => 2
  | Item.progPairItem _ _ => 1

theorem rank_lt_of_getChildItem {S : SimplexD} {it c : Item} {r : Nat}
    (h : getChildItem S (some it) r = some c) : itemRank c < itemRank it := by
  cases it with
  | simplexItem =>
      rw [getChildItem] at h
      split at h
      all_goals simp at h
      all_goals subst h
      all_goals simp [itemRank]
  | groupItem g =>
      rw [getChildItem] at h
      repeat' split at h
      all_goals simp at h
      all_goals subst h
      all_goals simp [itemRank]
  | ctrlItem c0 =>
      cases c0 <;> rw [getChildItem] at h <;> repeat' split at h
      all_goals simp at h
      all_goals subst h
      all_goals simp [itemRank]
  | comboPairItem gi ci pi => rw [getChildItem] at h; simp at h
  | travPairItem gi ti slot => rw [getChildItem] at h; simp at h
  | progressionItem c0 =>
      rw [getChildItem] at h
      repeat' split at h
      all_goals simp at h
      all_goals subst h
      all_goals simp [itemRank]
  | progPairItem c0 pi => rw [getChildItem] at h; simp at h

/-- The body of `checkChildren`'s recursion loop: the first row whose
child resolves (`for row in xrange(...): if child is not None: return`).
The first `Nat` is the row to try next, the second the number of rows
left to try. -/
def firstChildFrom (S : SimplexD) (it : Item) : Nat → Nat → Option Item
  | _, 0 => none
  | row, fuel + 1 =>
      match getChildItem S (some it) row with
      | some c => some c
      | none => firstChildFrom S it (row + 1) fuel

/-- The first resolvable child of an item within its row count. -/
def firstChild (S : SimplexD) (it : Item) : Option Item :=
  firstChildFrom S it 0 (getItemRowCount S (some it))

theorem firstChildFrom_some {S : SimplexD} {it : Item} :
    ∀ fuel row c, firstChildFrom S it row fuel = some c →
      ∃ r, getChildItem S (some it) r = some c := by
  intro fuel
  induction fuel with
  | zero => intro row c h; simp [firstChildFrom] at h
  | succ n ih =>
      intro row c h
      rw [firstChildFrom] at h
      split at h
      · rename_i c2 heq
        exact ⟨row, heq.trans h⟩
      · exact ih (row + 1) c h

theorem rank_lt_of_firstChild {S : SimplexD} {it c : Item}
    (h : firstChild S it = some c) : itemRank c < itemRank it := by
  obtain ⟨r, hr⟩ := firstChildFrom_some _ _ _ h
  exact rank_lt_of_getChildItem hr

/-- `SimplexFilterModel.checkChildren`: accept when the item's own name
passes BOTH the filter-string match AND the isolation test, otherwise
recurse into the item's *first* resolvable child only.  Each recursion
step strictly decreases `itemRank`, so `itemRank item` steps of fuel
always suffice; the fuel argument only makes the recursion structural. -/
def checkChildrenF (S : SimplexD) (st : FilterState) : Nat → Item → Bool
  | 0, _ => false
  | fuel + 1, item =>
      if matchFilterString st (itemName S item) && matchIsolation st (itemName S item) then
        true
      else
        match firstChild S item with
        | some c => checkChildrenF S st fuel c
        | none => false

def checkChildren (S : SimplexD) (st : FilterState) (item : Item) : Bool :=
  checkChildrenF S st (itemRank item) item

/-- The item kinds `SimplexFilterModel.filterAcceptsRow` sends through
`checkChildren` (ProgPair, Slider, Combo, ComboPair, Progression). -/
def isFilterRecurseType : Item → Bool
  | Item.progPairItem _ _ => true
  | Item.ctrlItem (Ctrl.slider _ _) => true
  | Item.ctrlItem (Ctrl.combo _ _) => true
  | Item.comboPairItem _ _ _ => true
  | Item.progressionItem _ => true
  | _ => false

/-- `SimplexFilterModel.filterAcceptsRow`. -/
def filterAcceptsRow (S : SimplexD) (st : FilterState) (item : Item) : Bool :=
  if !(st.tokens = []) || !(st.isolateList = []) then
    if isFilterRecurseType item then checkChildren S st item else true
  else true

theorem itemRank_pos (item : Item) : 1 ≤ itemRank item := by
  cases item <;> simp [itemRank]

/-- Iterated first-resolvable-child chain: the item itself at 0, then its
first child, that child's first child, and so on. -/
def iterateFirstChild (S : SimplexD) : Item → Nat → Option Item
  | it, 0 => some it
  | it, k + 1 =>
      match firstChild S it with
      | some c => iterateFirstChild S c k
      | none => none

/-- `checkChildren` accepts exactly when some item along the first-child
descendant chain passes BOTH the filter-string match and the isolation
test. -/
theorem checkChildren_iff_chain (S : SimplexD) (st : FilterState) :
    ∀ fuel item, itemRank item ≤ fuel →
      (checkChildrenF S st fuel item = true ↔
        ∃ k c, iterateFirstChild S item k = some c ∧
          matchFilterString st (itemName S c) = true ∧
          matchIsolation st (itemName S c) = true) := by
  intro fuel
  induction fuel with
  | zero =>
      intro item hr
      exact absurd (le_trans (itemRank_pos item) hr) (by omega)
  | succ n ih =>
      intro item hr
      rw [checkChildrenF]
      split
      · rename_i hm
        rw [Bool.and_eq_true] at hm
        constructor
        · intro _
          exact ⟨0, item, rfl, hm.1, hm.2⟩
        · intro _
          rfl
      · rename_i hm
        rw [Bool.and_eq_true] at hm
        cases hfc : firstChild S item with
        | some c =>
            have hrank : itemRank c < itemRank item := rank_lt_of_firstChild hfc
            rw [ih c (by omega)]
            constructor
            · rintro ⟨k, d, hit, h1, h2⟩
              refine ⟨k + 1, d, ?_, h1, h2⟩
              rw [iterateFirstChild, hfc]
              exact hit
            · rintro ⟨k, d, hit, h1, h2⟩
              cases k with
              | zero =>
                  rw [iterateFirstChild] at hit
                  cases hit
                  exact absurd (And.intro h1 h2) hm
              | succ k2 =>
                  rw [iterateFirstChild, hfc] at hit
                  exact ⟨k2, d, hit, h1, h2⟩
        | none =>
            simp only [Bool.false_eq_true, false_iff]
            rintro ⟨k, d, hit, h1, h2⟩
            cases k with
            | zero =>
                rw [iterateFirstChild] at hit
                cases hit
                exact absurd (And.intro h1 h2) hm
            | succ k2 =>
                rw [iterateFirstChild, hfc] at hit
                cases hit

/-- **C5 (amended).** A row of the kinds the name filter recurses into is
accepted iff both the filter string and the isolate list are empty, or
some item along its first-child descendant chain passes BOTH the
filter-string match (any token, vacuously when no tokens) AND the
isolation test (membership, vacuously when the isolate list is empty);
rows of the other kinds are always accepted.  In particular, with both
the filter string and the isolate list empty every row is accepted. -/
theorem c5_filter_accepts_iff (S : SimplexD) (st : FilterState) (item : Item) :
    (st.tokens = [] ∧ st.isolateList = [] → filterAcceptsRow S st item = true) ∧
    (filterAcceptsRow S st item = true ↔
      (st.tokens = [] ∧ st.isolateList = []) ∨
      isFilterRecurseType item = false ∨
      ∃ k c, iterateFirstChild S item k = some c ∧
        matchFilterString st (itemName S c) = true ∧
        matchIsolation st (itemName S c) = true) := by
  constructor
  · rintro ⟨h1, h2⟩
    simp [filterAcceptsRow, h1, h2]
  · by_cases hg : st.tokens = [] ∧ st.isolateList = []
    · obtain ⟨h1, h2⟩ := hg
      simp [filterAcceptsRow, h1, h2]
    · have hcond : (!decide (st.tokens = []) || !decide (st.isolateList = [])) = true := by
        rcases not_and_or.mp hg with h | h <;> simp [h]
      rw [filterAcceptsRow, if_pos hcond]
      cases hrec : isFilterRecurseType item with
      | false => simp
      | true =>
          rw [if_pos rfl]
          rw [show checkChildren S st item = checkChildrenF S st (itemRank item) item from rfl,
            checkChildren_iff_chain S st (itemRank item) item (le_refl _)]
          constructor
          · intro h
            exact Or.inr (Or.inr h)
          · rintro (hc | hc | hc)
            · exact absurd hc hg
            · exact absurd hc (by decide)
            · exact hc

/-- A slider named "alpha" with an empty progression. -/
def exSlider5 : SliderD :=
  { name := "alpha", value := 0, enabled := true
    prog := { name := "alphaShapes", pairs := [], falloffs := [] } }

/-- A rig holding only `exSlider5`. -/
def exS5 : SimplexD :=
  { name := "rig5"
    sliderGroups := [{ name := "grp5", items := [exSlider5] }]
    comboGroups := []
    traversalGroups := [] }

/-- Filter state with filter string "alpha" and isolate list `["beta"]`. -/
def st5 : FilterState :=
  (setFilterString { tokens := [], regs := [], isolateList := ["beta"] } "alpha").getD
    { tokens := [], regs := [], isolateList := [] }

/-- **C5 (counterexample).** With filter string "alpha" and isolate list
`["beta"]`, the slider named "alpha" matches a compiled filter token, yet
the row is rejected: `checkChildren` demands the filter match AND the
isolate membership, not their disjunction as the claim states. -/
theorem c5_counterexample :
    st5.isolateList = ["beta"] ∧
    matchFilterString st5 (itemName exS5 (Item.ctrlItem (Ctrl.slider 0 0))) = true ∧
    filterAcceptsRow exS5 st5 (Item.ctrlItem (Ctrl.slider 0 0)) = false := by
  refine ⟨rfl, ?_, ?_⟩ <;> decide

/-- Witness for the amended C5: with everything empty the slider row is
accepted, and with filter string "alpha" alone (no isolate list) it is
accepted through the chain disjunct at the item itself. -/
theorem c5_filter_accepts_iff_witness :
    filterAcceptsRow exS5 { tokens := [], regs := [], isolateList := [] }
      (Item.ctrlItem (Ctrl.slider 0 0)) = true ∧
    filterAcceptsRow exS5
      ((setFilterString { tokens := [], regs := [], isolateList := [] } "alpha").getD
        { tokens := [], regs := [], isolateList := [] })
      (Item.ctrlItem (Ctrl.slider 0 0)) = true :=
  ⟨(c5_filter_accepts_iff exS5 { tokens := [], regs := [], isolateList := [] }
      (Item.ctrlItem (Ctrl.slider 0 0))).1 ⟨rfl, rfl⟩,
   (c5_filter_accepts_iff exS5
      ((setFilterString { tokens := [], regs := [], isolateList := [] } "alpha").getD
        { tokens := [], regs := [], isolateList := [] })
      (Item.ctrlItem (Ctrl.slider 0 0))).2.mpr
     (Or.inr (Or.inr ⟨0, Item.ctrlItem (Ctrl.slider 0 0), rfl, by decide, by decide⟩))⟩

/-- **C6.** Setting the filter string does split on whitespace and compile
per token, but a token containing a wildcard does not behave as claimed:
"sl*r" does not start with the wildcard marker, so it is fuzzy-joined to
the pattern `s.*?l.*?*.*?r`, whose bare `*` follows the lazy span
quantifier — Python `re.compile` raises "multiple repeat", modelled here
by the setter returning `none` (and a token that does start with `*`
compiles a pattern beginning with a bare `*`, "nothing to repeat").  The
non-wildcard half of the claim is real: "sdr" fuzzy-matches "SlideR"
case-insensitively through the interposed lazy any-character spans. -/
theorem c6_wildcard_token_compile_error :
    fuzzyPattern "sl*r".toList = "s.*?l.*?*.*?r".toList ∧
    setFilterString { tokens := [], regs := [], isolateList := [] } "sl*r" = none ∧
    compileToken "*lr".toList = none ∧
    ((compileToken "sdr".toList).map fun p => rsearch p "SlideR".toList) = some true := by
  refine ⟨rfl, ?_, rfl, ?_⟩ <;> decide

/-! ### `ComboFilterModel` -/

/-- The mutable state of a `ComboFilterModel`: the inherited
`SimplexFilterModel` state, the required-sliders list and the
ANY/ALL/ONLY mode flags plus the shape-hiding flag. -/
structure ComboFilterState where
  fs : FilterState
  requires : List Nat
  filterRequiresAll : Bool
  filterRequiresAny : Bool
  filterRequiresOnly : Bool
  filterShapes : Bool
deriving DecidableEq, Repr

/-- The `filterShapes` clauses of `ComboFilterModel.filterAcceptsRow`:
reject a Progression with at most 2 pairs, and a ProgPair whose
progression has at most 2 pairs or whose shape is the rest shape. -/
def shapeReject (S : SimplexD) : Item → Bool
  | Item.progressionItem c =>
      ((ctrlProg S c).map fun pr => decide (pr.pairs.length ≤ 2)).getD false
  | Item.progPairItem c pi =>
      match ctrlProg S c with
      | some pr =>
          decide (pr.pairs.length ≤ 2) || (((pr.pairs.get? pi).map fun p => p.isRest).getD false)
      | none => false
  | _ => false

/-- `[i.slider for i in data.pairs]`: the sliders referenced by a combo. -/
def comboSliders (S : SimplexD) (gi ci : Nat) : List Nat :=
  ((lookupCombo S gi ci).map fun cb => cb.pairs.map fun p => p.slider).getD []

/-- `ComboFilterModel.filterAcceptsRow`: shape-hiding clauses, then the
dependency modes — tested in the source order `filterRequiresAll`,
`elif filterRequiresAny`, `elif filterRequiresOnly` — then the inherited
`SimplexFilterModel.filterAcceptsRow`. -/
def comboFilterAcceptsRow (S : SimplexD) (st : ComboFilterState) (item : Item) : Bool :=
  if st.filterShapes && shapeReject S item then false
  else if (st.filterRequiresAny || st.filterRequiresAll || st.filterRequiresOnly)
      && !(st.requires = []) then
    match item with
    | Item.ctrlItem (Ctrl.combo gi ci) =>
        let sliders := comboSliders S gi ci
        if st.filterRequiresAll then
          if st.requires.all (fun r => sliders.contains r) then filterAcceptsRow S st.fs item
          else false
        else if st.filterRequiresAny then
          if st.requires.any (fun r => sliders.contains r) then filterAcceptsRow S st.fs item
          else false
        else
          if sliders.all (fun s => st.requires.contains s) then filterAcceptsRow S st.fs item
          else false
    | _ => filterAcceptsRow S st.fs item
  else filterAcceptsRow S st.fs item

/-- A combo referencing only slider 1, with an empty progression. -/
def exCombo7 : ComboD :=
  { name := "cmb7", enabled := true
    pairs := [{ name := "pair7", slider := 1, value := 1 }]
    prog := { name := "progression7", pairs := [], falloffs := [] } }

/-- A rig holding only `exCombo7`. -/
def exS7 : SimplexD :=
  { name := "rig7"
    sliderGroups := []
    comboGroups := [{ name := "grp7", items := [exCombo7] }]
    traversalGroups := [] }

/-- Dependency-filter state with BOTH the ANY and the ALL flags enabled
and required sliders `[1, 2]`. -/
def st7 : ComboFilterState :=
  { fs := { tokens := [], regs := [], isolateList := [] }
    requires := [1, 2]
    filterRequiresAll := true
    filterRequiresAny := true
    filterRequiresOnly := false
    filterShapes := true }

/-- **C7 (counterexample).** With ANY and ALL both enabled, required
sliders `[1, 2]` and a combo referencing only slider 1, the ANY test
passes — so under the claimed "ANY overrides ALL" priority the row would
be accepted — yet the code tests ALL first and rejects the row. -/
theorem c7_counterexample :
    st7.filterRequiresAny = true ∧
    (st7.requires.any fun r => (comboSliders exS7 0 0).contains r) = true ∧
    comboFilterAcceptsRow exS7 st7 (Item.ctrlItem (Ctrl.combo 0 0)) = false := by
  refine ⟨rfl, ?_, ?_⟩ <;> decide

/-- **C7 (amended).** For a Combo row with a non-empty required-sliders
list, the mutually exclusive modes are applied in the deterministic
priority order ALL overrides ANY overrides ONLY — the ALL test decides
whenever the ALL flag is set, otherwise ANY, otherwise ONLY — and no
assertion is raised (the filter is a total function). -/
theorem c7_dependency_modes_priority (S : SimplexD) (st : ComboFilterState)
    (gi ci : Nat) (hreq : st.requires ≠ []) :
    (st.filterRequiresAll = true →
      (comboFilterAcceptsRow S st (Item.ctrlItem (Ctrl.combo gi ci)) = true ↔
        (∀ r ∈ st.requires, r ∈ comboSliders S gi ci) ∧
        filterAcceptsRow S st.fs (Item.ctrlItem (Ctrl.combo gi ci)) = true)) ∧
    (st.filterRequiresAll = false → st.filterRequiresAny = true →
      (comboFilterAcceptsRow S st (Item.ctrlItem (Ctrl.combo gi ci)) = true ↔
        (∃ r ∈ st.requires, r ∈ comboSliders S gi ci) ∧
        filterAcceptsRow S st.fs (Item.ctrlItem (Ctrl.combo gi ci)) = true)) ∧
    (st.filterRequiresAll = false → st.filterRequiresAny = false →
      st.filterRequiresOnly = true →
      (comboFilterAcceptsRow S st (Item.ctrlItem (Ctrl.combo gi ci)) = true ↔
        (∀ s ∈ comboSliders S gi ci, s ∈ st.requires) ∧
        filterAcceptsRow S st.fs (Item.ctrlItem (Ctrl.combo gi ci)) = true)) := by
  refine ⟨?_, ?_, ?_⟩
  · intro hall
    simp [comboFilterAcceptsRow, shapeReject, hall, hreq, List.all_eq_true, and_comm]
  · intro hall hany
    simp [comboFilterAcceptsRow, shapeReject, hall, hany, hreq, List.any_eq_true, and_comm]
  · intro hall hany honly
    simp [comboFilterAcceptsRow, shapeReject, hall, hany, honly, hreq, List.all_eq_true,
      and_comm]

/-- Witness for the amended C7 on `exS7`: with ALL and ANY both set and
required sliders `[1]`, the ALL test decides and the row is accepted. -/
theorem c7_dependency_modes_priority_witness :
    comboFilterAcceptsRow exS7
      { fs := { tokens := [], regs := [], isolateList := [] }
        requires := [1]
        filterRequiresAll := true
        filterRequiresAny := true
        filterRequiresOnly := false
        filterShapes := true }
      (Item.ctrlItem (Ctrl.combo 0 0)) = true :=
  ((c7_dependency_modes_priority exS7
      { fs := { tokens := [], regs := [], isolateList := [] }
        requires := [1]
        filterRequiresAll := true
        filterRequiresAny := true
        filterRequiresOnly := false
        filterShapes := true }
      0 0 (by decide)).1 rfl).mpr ⟨by decide, by decide⟩

/-! ### Selection coercion (`coerceIndexToType` and helpers) -/

/-- Modelled from the spec: `classDepth` is a per-class integer declared
on each item class in `interfaceItems.py`, which is not part of this
snapshot.  The spec fixes the relative depths: the root, then groups,
then controls one level deeper, then the control's constituents (weighted
pairs, link slots, progressions and shape-target pairs) two levels deeper
than groups. -/
def classDepth : Item → Nat
  | Item.simplexItem => 0
  | Item.groupItem _ => 1
  | Item.ctrlItem _ => 2
  | Item.comboPairItem _ _ _ => 3
  | Item.travPairItem _ _ _ => 3
  | Item.progressionItem _ => 3
  | Item.progPairItem _ _ => 3

/-- The children an item contributes to the coercion descent queue:
`model.index(row, 0, checkIdx)` for every `row` below the row count. -/
def childrenOf (S : SimplexD) (it : Item) : List Item :=
  (List.range (getItemRowCount S (some it))).filterMap fun r => getChildItem S (some it) r

def progWeight (pr : Prog) : Nat := 1 + pr.pairs.length

def sliderWeight (sl : SliderD) : Nat := 1 + sl.prog.pairs.length

def comboWeight (cb : ComboD) : Nat := 1 + cb.pairs.length + progWeight cb.prog

def travWeight (tv : TravD) : Nat := 3 + progWeight tv.prog

def sliderGroupWeight (gr : GroupOf SliderD) : Nat := 1 + (gr.items.map sliderWeight).sum

def comboGroupWeight (gr : GroupOf ComboD) : Nat := 1 + (gr.items.map comboWeight).sum

def travGroupWeight (gr : GroupOf TravD) : Nat := 1 + (gr.items.map travWeight).sum

/-- Number of tree nodes at or below an item: a bound on the number of
queue pops a coercion descent starting at the item can perform. -/
def itemWeight (S : SimplexD) : Item → Nat
  | Item.simplexItem =>
      1 + (S.sliderGroups.map sliderGroupWeight).sum + (S.comboGroups.map comboGroupWeight).sum
        + (S.traversalGroups.map travGroupWeight).sum
  | Item.groupItem g =>
      if g < S.sliderGroups.length then
        ((S.sliderGroups.get? g).map sliderGroupWeight).getD 1
      else if g < S.sliderGroups.length + S.comboGroups.length then
        ((S.comboGroups.get? (g - S.sliderGroups.length)).map comboGroupWeight).getD 1
      else
        ((S.traversalGroups.get? (g - S.sliderGroups.length - S.comboGroups.length)).map
          travGroupWeight).getD 1
  | Item.ctrlItem (Ctrl.slider gi si) => ((lookupSlider S gi si).map sliderWeight).getD 1
  | Item.ctrlItem (Ctrl.combo gi ci) => ((lookupCombo S gi ci).map comboWeight).getD 1
  | Item.ctrlItem (Ctrl.trav gi ti) => ((lookupTrav S gi ti).map travWeight).getD 1
  | Item.comboPairItem _ _ _ => 1
  | Item.travPairItem _ _ _ => 1
  | Item.progressionItem c => ((ctrlProg S c).map progWeight).getD 1
  | Item.progPairItem _ _ => 1

/-- Total weight of a queue. -/
def qsum (S : SimplexD) (q : List Item) : Nat := (q.map (itemWeight S)).sum

/-- The descent loop of `coerceIndexToChildType`: pop from the queue's
end (Python `queue.pop()`), push the popped item's children while its
class depth is above the target, collect it when the depths are equal.
Every pop consumes one node of the popped item's subtree, so
`qsum S queue + 1` steps of fuel always suffice; the fuel argument only
makes the recursion structural. -/
def coerceLoopF (S : SimplexD) (target : Nat) : Nat → List Item → List Item → List Item
  | 0, _, acc => acc
  | fuel + 1, queue, acc =>
      match queue.getLast? with
      | none => acc
      | some checkIdx =>
          let rest := queue.dropLast
          if classDepth checkIdx < target then
            coerceLoopF S target fuel (rest ++ childrenOf S checkIdx) acc
          else if classDepth checkIdx = target then
            coerceLoopF S target fuel rest (acc ++ [checkIdx])
          else
            coerceLoopF S target fuel rest acc

/-- `coerceIndexToChildType`: indexes already at the target depth pass
through, deeper ones are dropped, shallower ones are expanded by the
descent loop; the result is de-duplicated (`list(set(out))`). -/
def coerceIndexToChildType (S : SimplexD) (indexes : List Item) (target : Nat) : List Item :=
  (indexes.flatMap fun idx =>
    if classDepth idx < target then coerceLoopF S target (qsum S [idx] + 1) [idx] []
    else if classDepth idx = target then [idx]
    else []).dedup

/-- The parent-climbing loop of `coerceIndexToParentType`
(`while parItem.classDepth > targetDepth: parIdx = parIdx.parent()`).
Parent ranks strictly increase and are bounded by 5, so 6 steps of fuel
always suffice; a dangling parent degrades to `none`. -/
def climbF (S : SimplexD) (target : Nat) : Nat → Item → Option Item
  | 0, _ => none
  | fuel + 1, it =>
      if classDepth it ≤ target then some it
      else
        match getParentItem S it with
        | some p => climbF S target fuel p
        | none => none

/-- `coerceIndexToParentType`: indexes deeper than the target climb to
their ancestor and are kept only when the climb lands exactly on the
target depth. -/
def coerceIndexToParentType (S : SimplexD) (indexes : List Item) (target : Nat) : List Item :=
  (indexes.flatMap fun idx =>
    if target < classDepth idx then
      match climbF S target 6 idx with
      | some p => if classDepth p = target then [p] else []
      | none => []
    else if classDepth idx = target then [idx]
    else []).dedup

/-- `coerceIndexToType`: split the selection by depth relative to the
target, expand the shallow part downward and the deep part upward, and
de-duplicate the union. -/
def coerceIndexToType (S : SimplexD) (indexes : List Item) (target : Nat) : List Item :=
  let parents := indexes.filter fun idx => decide (classDepth idx < target)
  let children := indexes.filter fun idx => decide (target < classDepth idx)
  let out := indexes.filter fun idx => decide (classDepth idx = target)
  (out ++ coerceIndexToChildType S parents target ++
    coerceIndexToParentType S children target).dedup

theorem filterMap_eq_map_of_some {α β : Type} {l : List α} {f : α → Option β} {g : α → β}
    (h : ∀ a ∈ l, f a = some (g a)) : l.filterMap f = l.map g := by
  induction l with
  | nil => rfl
  | cons a tl ih =>
      rw [List.filterMap_cons, h a (by simp), List.map_cons,
        ih fun b hb => h b (by simp [hb])]

theorem childrenOf_group_slider {S : SimplexD} {g : Nat} {gr : GroupOf SliderD}
    (h1 : g < S.sliderGroups.length) (h2 : S.sliderGroups.get? g = some gr) :
    childrenOf S (Item.groupItem g) =
      (List.range gr.items.length).map fun si => Item.ctrlItem (Ctrl.slider g si) := by
  have h2x : S.sliderGroups[g]? = some gr := by simpa using h2
  have h3 : S.sliderGroups[g] = gr := by
    rw [List.getElem?_eq_getElem h1] at h2x
    exact Option.some.inj h2x
  rw [childrenOf]
  have hc : getItemRowCount S (some (Item.groupItem g)) = gr.items.length := by
    simp [getItemRowCount, groupSize, h1, h2, h3]
  rw [hc]
  refine filterMap_eq_map_of_some ?_
  intro r hr
  rw [List.mem_range] at hr
  simp [getChildItem, h1, h2, h3, hr]

theorem childrenOf_slider {S : SimplexD} {gi si : Nat} {sl : SliderD}
    (h : lookupSlider S gi si = some sl) :
    childrenOf S (Item.ctrlItem (Ctrl.slider gi si)) =
      (List.range sl.prog.pairs.length).map fun pi => Item.progPairItem (Ctrl.slider gi si) pi := by
  rw [childrenOf]
  have hc : getItemRowCount S (some (Item.ctrlItem (Ctrl.slider gi si))) =
      sl.prog.pairs.length := by
    simp [getItemRowCount, h]
  rw [hc]
  refine filterMap_eq_map_of_some ?_
  intro r hr
  rw [List.mem_range] at hr
  simp [getChildItem, h, hr]

theorem qsum_append (S : SimplexD) (a b : List Item) :
    qsum S (a ++ b) = qsum S a + qsum S b := by
  simp [qsum]

theorem sum_range_map_of_get {α : Type} (g : α → Nat) :
    ∀ (l : List α) (f : Nat → Nat),
      (∀ i a, l.get? i = some a → f i = g a) →
      ((List.range l.length).map f).sum = (l.map g).sum := by
  intro l
  induction l with
  | nil => intro f _; rfl
  | cons a tl ih =>
      intro f h
      rw [List.length_cons, List.range_succ_eq_map, List.map_cons, List.map_map,
        List.sum_cons, List.map_cons, List.sum_cons, h 0 a rfl,
        ih (f ∘ Nat.succ) fun i b hb => h (i + 1) b hb]

/-- Items that can appear in a slider-group coercion descent. -/
def sgOK (S : SimplexD) : Item → Prop
  | Item.groupItem g => g < S.sliderGroups.length
  | Item.ctrlItem (Ctrl.slider gi si) => (lookupSlider S gi si).isSome = true
  | Item.progPairItem (Ctrl.slider _ _) _ => True
  | _ => False

/-- What the descent loop collects below one queue entry of the
slider-group universe: every shape-pair path at or below it. -/
def collectsSG (S : SimplexD) : Item → Item → Prop
  | Item.groupItem g, x =>
      ∃ si pi sl, lookupSlider S g si = some sl ∧ pi < sl.prog.pairs.length ∧
        x = Item.progPairItem (Ctrl.slider g si) pi
  | Item.ctrlItem (Ctrl.slider gi si), x =>
      ∃ pi sl, lookupSlider S gi si = some sl ∧ pi < sl.prog.pairs.length ∧
        x = Item.progPairItem (Ctrl.slider gi si) pi
  | Item.progPairItem c pi, x => x = Item.progPairItem c pi
  | _, _ => False

theorem coerceLoopF_step (S : SimplexD) (target fuel : Nat) (queue acc : List Item)
    (q0 : Item) (hql : queue.getLast? = some q0) :
    coerceLoopF S target (fuel + 1) queue acc =
      if classDepth q0 < target then
        coerceLoopF S target fuel (queue.dropLast ++ childrenOf S q0) acc
      else if classDepth q0 = target then
        coerceLoopF S target fuel queue.dropLast (acc ++ [q0])
      else coerceLoopF S target fuel queue.dropLast acc := by
  rw [coerceLoopF, hql]

theorem sum_map_one {α : Type} (l : List α) : (l.map fun _ => (1 : Nat)).sum = l.length := by
  induction l with
  | nil => rfl
  | cons a tl ih => simp [ih, Nat.add_comm]

theorem qsum_childrenOf_group {S : SimplexD} {g : Nat} {gr : GroupOf SliderD}
    (h1 : g < S.sliderGroups.length) (h2 : S.sliderGroups.get? g = some gr) :
    qsum S (childrenOf S (Item.groupItem g)) = (gr.items.map sliderWeight).sum := by
  rw [childrenOf_group_slider h1 h2, qsum, List.map_map]
  refine sum_range_map_of_get sliderWeight gr.items _ ?_
  intro i a ha
  have h2x : S.sliderGroups[g]? = some gr := by simpa using h2
  have hax : gr.items[i]? = some a := by simpa using ha
  simp [itemWeight, lookupSlider, h2x, hax, Function.comp]

theorem qsum_childrenOf_slider {S : SimplexD} {gi si : Nat} {sl : SliderD}
    (h : lookupSlider S gi si = some sl) :
    qsum S (childrenOf S (Item.ctrlItem (Ctrl.slider gi si))) = sl.prog.pairs.length := by
  rw [childrenOf_slider h, qsum, List.map_map]
  have he : ∀ y ∈ List.range sl.prog.pairs.length,
      (itemWeight S ∘ fun pi => Item.progPairItem (Ctrl.slider gi si) pi) y = 1 := by
    intro y _
    rfl
  rw [List.map_congr_left he, sum_map_one, List.length_range]

theorem sgOK_childrenOf_group {S : SimplexD} {g : Nat} {gr : GroupOf SliderD}
    (h1 : g < S.sliderGroups.length) (h2 : S.sliderGroups.get? g = some gr) :
    ∀ q ∈ childrenOf S (Item.groupItem g), sgOK S q := by
  rw [childrenOf_group_slider h1 h2]
  intro q hqm
  rw [List.mem_map] at hqm
  obtain ⟨si, hsi, rfl⟩ := hqm
  rw [List.mem_range] at hsi
  show (lookupSlider S g si).isSome = true
  rw [lookupSlider, h2]
  simp [List.getElem?_eq_getElem hsi]

theorem sgOK_childrenOf_slider {S : SimplexD} {gi si : Nat} {sl : SliderD}
    (h : lookupSlider S gi si = some sl) :
    ∀ q ∈ childrenOf S (Item.ctrlItem (Ctrl.slider gi si)), sgOK S q := by
  rw [childrenOf_slider h]
  intro q hqm
  rw [List.mem_map] at hqm
  obtain ⟨pi, _, rfl⟩ := hqm
  exact trivial

theorem exists_mem_append_iff {α : Type} {L M : List α} {P : α → Prop} :
    (∃ x ∈ L ++ M, P x) ↔ (∃ x ∈ L, P x) ∨ ∃ x ∈ M, P x := by
  constructor
  · rintro ⟨x, hx, hp⟩
    rcases List.mem_append.mp hx with h | h
    · exact Or.inl ⟨x, h, hp⟩
    · exact Or.inr ⟨x, h, hp⟩
  · rintro (⟨x, hx, hp⟩ | ⟨x, hx, hp⟩)
    · exact ⟨x, List.mem_append_left _ hx, hp⟩
    · exact ⟨x, List.mem_append_right _ hx, hp⟩

theorem collects_childrenOf_group {S : SimplexD} {g : Nat} {gr : GroupOf SliderD}
    (h1 : g < S.sliderGroups.length) (h2 : S.sliderGroups.get? g = some gr) (x : Item) :
    (∃ q ∈ childrenOf S (Item.groupItem g), collectsSG S q x) ↔
      collectsSG S (Item.groupItem g) x := by
  rw [childrenOf_group_slider h1 h2]
  constructor
  · rintro ⟨q, hqm, hc⟩
    rw [List.mem_map] at hqm
    obtain ⟨si, _, rfl⟩ := hqm
    obtain ⟨pi, sl, hlk, hpi, rfl⟩ := hc
    exact ⟨si, pi, sl, hlk, hpi, rfl⟩
  · rintro ⟨si, pi, sl, hlk, hpi, rfl⟩
    have hsi : si < gr.items.length := by
      rw [lookupSlider, h2] at hlk
      simp only [Option.some_bind] at hlk
      rw [List.get?_eq_some] at hlk
      exact hlk.1
    refine ⟨Item.ctrlItem (Ctrl.slider g si), ?_, pi, sl, hlk, hpi, rfl⟩
    rw [List.mem_map]
    exact ⟨si, List.mem_range.mpr hsi, rfl⟩

theorem collects_childrenOf_slider {S : SimplexD} {gi si : Nat} {sl : SliderD}
    (h : lookupSlider S gi si = some sl) (x : Item) :
    (∃ q ∈ childrenOf S (Item.ctrlItem (Ctrl.slider gi si)), collectsSG S q x) ↔
      collectsSG S (Item.ctrlItem (Ctrl.slider gi si)) x := by
  rw [childrenOf_slider h]
  constructor
  · rintro ⟨q, hqm, hc⟩
    rw [List.mem_map] at hqm
    obtain ⟨pi, hpi, rfl⟩ := hqm
    rw [List.mem_range] at hpi
    exact ⟨pi, sl, h, hpi, hc⟩
  · rintro ⟨pi, sl2, hlk, hpi, rfl⟩
    obtain rfl : sl = sl2 := Option.some.inj (h.symm.trans hlk)
    refine ⟨Item.progPairItem (Ctrl.slider gi si) pi, ?_, rfl⟩
    rw [List.mem_map]
    exact ⟨pi, List.mem_range.mpr hpi, rfl⟩

/-- Correctness of the coercion descent loop on the slider-group
universe: it returns the accumulator plus everything `collectsSG` deems
below a queue entry. -/
theorem coerceLoopF_mem (S : SimplexD) :
    ∀ (fuel : Nat) (queue acc : List Item) (x : Item),
      (∀ q ∈ queue, sgOK S q) → qsum S queue < fuel →
      (x ∈ coerceLoopF S 3 fuel queue acc ↔ x ∈ acc ∨ ∃ q ∈ queue, collectsSG S q x) := by
  intro fuel
  induction fuel with
  | zero =>
      intro queue acc x hq hlt
      exact absurd hlt (Nat.not_lt_zero _)
  | succ n ih =>
      intro queue acc x hq hlt
      cases hql : queue.getLast? with
      | none =>
          rw [List.getLast?_eq_none_iff] at hql
          subst hql
          simp [coerceLoopF]
      | some q0 =>
          obtain ⟨L, rfl⟩ : ∃ L, queue = L ++ [q0] :=
            ⟨queue.dropLast, (List.dropLast_append_getLast? q0 hql).symm⟩
          have hq0 : sgOK S q0 := hq q0 (by simp)
          have hL : ∀ q ∈ L, sgOK S q := fun q hqm => hq q (List.mem_append_left _ hqm)
          have hsum : qsum S (L ++ [q0]) = qsum S L + itemWeight S q0 := by
            rw [qsum_append]
            simp [qsum]
          rw [coerceLoopF_step S 3 n (L ++ [q0]) acc q0 (List.getLast?_concat L),
            List.dropLast_concat]
          cases q0 with
          | groupItem g =>
              have hg : g < S.sliderGroups.length := hq0
              obtain ⟨gr, hgr⟩ : ∃ gr, S.sliderGroups.get? g = some gr :=
                ⟨_, List.get?_eq_get hg⟩
              rw [if_pos (by simp [classDepth])]
              have hinv : ∀ q ∈ L ++ childrenOf S (Item.groupItem g), sgOK S q := by
                intro q hqm
                rcases List.mem_append.mp hqm with hm | hm
                · exact hL q hm
                · exact sgOK_childrenOf_group hg hgr q hm
              have hfuel : qsum S (L ++ childrenOf S (Item.groupItem g)) < n := by
                rw [qsum_append, qsum_childrenOf_group hg hgr]
                have hw : itemWeight S (Item.groupItem g) =
                    1 + (gr.items.map sliderWeight).sum := by
                  have h2x : S.sliderGroups[g]? = some gr := by simpa using hgr
                  simp [itemWeight, hg, h2x, sliderGroupWeight]
                rw [hsum, hw] at hlt
                omega
              rw [ih _ acc x hinv hfuel, exists_mem_append_iff, exists_mem_append_iff,
                collects_childrenOf_group hg hgr x]
              simp only [List.mem_singleton, exists_eq_left]
          | ctrlItem c =>
              cases c with
              | combo gi ci => exact hq0.elim
              | trav gi ti => exact hq0.elim
              | slider gi si =>
                  obtain ⟨sl, hsl⟩ := Option.isSome_iff_exists.mp hq0
                  rw [if_pos (by simp [classDepth])]
                  have hinv : ∀ q ∈ L ++ childrenOf S (Item.ctrlItem (Ctrl.slider gi si)),
                      sgOK S q := by
                    intro q hqm
                    rcases List.mem_append.mp hqm with hm | hm
                    · exact hL q hm
                    · exact sgOK_childrenOf_slider hsl q hm
                  have hfuel : qsum S (L ++ childrenOf S (Item.ctrlItem (Ctrl.slider gi si)))
                      < n := by
                    rw [qsum_append, qsum_childrenOf_slider hsl]
                    have hw : itemWeight S (Item.ctrlItem (Ctrl.slider gi si)) =
                        1 + sl.prog.pairs.length := by
                      simp [itemWeight, hsl, sliderWeight]
                    rw [hsum, hw] at hlt
                    omega
                  rw [ih _ acc x hinv hfuel, exists_mem_append_iff, exists_mem_append_iff,
                    collects_childrenOf_slider hsl x]
                  simp only [List.mem_singleton, exists_eq_left]
          | progPairItem c pi =>
              rw [if_neg (by simp [classDepth]),
                if_pos (show classDepth (Item.progPairItem c pi) = 3 from rfl)]
              have hfuel : qsum S L < n := by
                have hw : itemWeight S (Item.progPairItem c pi) = 1 := rfl
                rw [hsum, hw] at hlt
                omega
              rw [ih L (acc ++ [Item.progPairItem c pi]) x hL hfuel,
                exists_mem_append_iff, List.mem_append, List.mem_singleton]
              simp only [List.mem_singleton, exists_eq_left]
              rw [show collectsSG S (Item.progPairItem c pi) x ↔
                  x = Item.progPairItem c pi from Iff.rfl]
              constructor
              · rintro ((h | h) | h)
                · exact Or.inl h
                · exact Or.inr (Or.inr h)
                · exact Or.inr (Or.inl h)
              · rintro (h | (h | h))
                · exact Or.inl (Or.inl h)
                · exact Or.inr h
                · exact Or.inl (Or.inr h)
          | simplexItem => exact hq0.elim
          | comboPairItem gi ci pi2 => exact hq0.elim
          | travPairItem gi ti slot => exact hq0.elim
          | progressionItem c => exact hq0.elim

/-- Slider-group instance of the descent: membership in
`coerceIndexToChildType` of exactly the shape-pair paths under the
group. -/
theorem coerce_child_group (S : SimplexD) (g : Nat) (hg : g < S.sliderGroups.length)
    (x : Item) :
    x ∈ coerceIndexToChildType S [Item.groupItem g] 3 ↔
      ∃ si pi sl, lookupSlider S g si = some sl ∧ pi < sl.prog.pairs.length ∧
        x = Item.progPairItem (Ctrl.slider g si) pi := by
  rw [coerceIndexToChildType, List.mem_dedup]
  have hform : ([Item.groupItem g].flatMap fun idx =>
      if classDepth idx < 3 then coerceLoopF S 3 (qsum S [idx] + 1) [idx] []
      else if classDepth idx = 3 then [idx]
      else []) =
      coerceLoopF S 3 (qsum S [Item.groupItem g] + 1) [Item.groupItem g] [] := by
    simp [classDepth]
  rw [hform, coerceLoopF_mem S (qsum S [Item.groupItem g] + 1) [Item.groupItem g] [] x
    (by intro q hqm; rw [List.mem_singleton] at hqm; subst hqm; exact hg)
    (Nat.lt_succ_self _)]
  simp only [List.not_mem_nil, false_or, List.mem_singleton, exists_eq_left]
  exact Iff.rfl

theorem mem_childrenOf {S : SimplexD} {it c : Item} (h : c ∈ childrenOf S it) :
    ∃ r, getChildItem S (some it) r = some c := by
  rw [childrenOf, List.mem_filterMap] at h
  obtain ⟨r, _, hr⟩ := h
  exact ⟨r, hr⟩

theorem getChildItem_ne_simplexItem {S : SimplexD} {it : Item} {r : Nat} {q : Item}
    (h : getChildItem S (some it) r = some q) : q ≠ Item.simplexItem := by
  intro hc
  subst hc
  have hlt := rank_lt_of_getChildItem h
  cases it <;> simp [itemRank] at hlt

theorem childrenOf_ne_simplexItem {S : SimplexD} {it q : Item} (h : q ∈ childrenOf S it) :
    q ≠ Item.simplexItem := by
  obtain ⟨r, hr⟩ := mem_childrenOf h
  exact getChildItem_ne_simplexItem hr

theorem getChildItem_group_ctrl {S : SimplexD} {g r : Nat} {c : Item}
    (h : getChildItem S (some (Item.groupItem g)) r = some c) :
    ∃ cc, c = Item.ctrlItem cc := by
  rw [getChildItem] at h
  repeat' split at h
  all_goals simp at h
  all_goals exact ⟨_, h.symm⟩

/-- What the coercion descent with target depth 3 collects below one
queue entry, for every item kind: a group contributes the direct
children of each of its controls (the descent stops at the first
target-depth item on a branch, so nothing deeper), a control contributes
its direct children, and a target-depth item contributes itself. -/
def collectsGen (S : SimplexD) : Item → Item → Prop
  | Item.simplexItem, _ => False
  | Item.groupItem g, x => ∃ c ∈ childrenOf S (Item.groupItem g), x ∈ childrenOf S c
  | Item.ctrlItem c, x => x ∈ childrenOf S (Item.ctrlItem c)
  | Item.comboPairItem gi ci pi, x => x = Item.comboPairItem gi ci pi
  | Item.travPairItem gi ti slot, x => x = Item.travPairItem gi ti slot
  | Item.progressionItem c, x => x = Item.progressionItem c
  | Item.progPairItem c pi, x => x = Item.progPairItem c pi

theorem getChildItem_ctrl_collects {S : SimplexD} {c : Ctrl} {r : Nat} {q : Item}
    (h : getChildItem S (some (Item.ctrlItem c)) r = some q) (x : Item) :
    collectsGen S q x ↔ x = q := by
  cases c <;> rw [getChildItem] at h <;> repeat' split at h
  all_goals simp at h
  all_goals subst h
  all_goals exact Iff.rfl

theorem collects_childrenOf_group_gen (S : SimplexD) (g : Nat) (x : Item) :
    (∃ q ∈ childrenOf S (Item.groupItem g), collectsGen S q x) ↔
      collectsGen S (Item.groupItem g) x := by
  constructor
  · rintro ⟨q, hq, hc⟩
    obtain ⟨r, hr⟩ := mem_childrenOf hq
    obtain ⟨cc, rfl⟩ := getChildItem_group_ctrl hr
    exact ⟨Item.ctrlItem cc, hq, hc⟩
  · rintro ⟨c, hcm, hx⟩
    obtain ⟨r, hr⟩ := mem_childrenOf hcm
    obtain ⟨cc, rfl⟩ := getChildItem_group_ctrl hr
    exact ⟨Item.ctrlItem cc, hcm, hx⟩

theorem collects_childrenOf_ctrl (S : SimplexD) (c : Ctrl) (x : Item) :
    (∃ q ∈ childrenOf S (Item.ctrlItem c), collectsGen S q x) ↔
      x ∈ childrenOf S (Item.ctrlItem c) := by
  constructor
  · rintro ⟨q, hq, hc⟩
    obtain ⟨r, hr⟩ := mem_childrenOf hq
    rw [getChildItem_ctrl_collects hr x] at hc
    subst hc
    exact hq
  · intro hx
    obtain ⟨r, hr⟩ := mem_childrenOf hx
    exact ⟨x, hx, (getChildItem_ctrl_collects hr x).mpr rfl⟩

theorem childrenOf_group_combo {S : SimplexD} {g : Nat} {gr : GroupOf ComboD}
    (h1 : ¬g < S.sliderGroups.length)
    (h2 : g < S.sliderGroups.length + S.comboGroups.length)
    (h3 : S.comboGroups.get? (g - S.sliderGroups.length) = some gr) :
    childrenOf S (Item.groupItem g) =
      (List.range gr.items.length).map fun ci =>
        Item.ctrlItem (Ctrl.combo (g - S.sliderGroups.length) ci) := by
  have h3x : S.comboGroups[g - S.sliderGroups.length]? = some gr := by simpa using h3
  have hlt : g - S.sliderGroups.length < S.comboGroups.length := by omega
  have h3el : S.comboGroups[g - S.sliderGroups.length] = gr := by
    rw [List.getElem?_eq_getElem hlt] at h3x
    exact Option.some.inj h3x
  rw [childrenOf]
  have hc : getItemRowCount S (some (Item.groupItem g)) = gr.items.length := by
    simp [getItemRowCount, groupSize, h1, h2, h3, h3x, h3el]
  rw [hc]
  refine filterMap_eq_map_of_some ?_
  intro r hr
  rw [List.mem_range] at hr
  simp [getChildItem, h1, h2, h3, h3x, h3el, hr]

theorem childrenOf_group_trav {S : SimplexD} {g : Nat} {gr : GroupOf TravD}
    (h1 : ¬g < S.sliderGroups.length)
    (h2 : ¬g < S.sliderGroups.length + S.comboGroups.length)
    (h3 : S.traversalGroups.get? (g - S.sliderGroups.length - S.comboGroups.length) = some gr) :
    childrenOf S (Item.groupItem g) =
      (List.range gr.items.length).map fun ti =>
        Item.ctrlItem (Ctrl.trav (g - S.sliderGroups.length - S.comboGroups.length) ti) := by
  have h3x : S.traversalGroups[g - S.sliderGroups.length - S.comboGroups.length]? = some gr := by
    simpa using h3
  have hlt : g - S.sliderGroups.length - S.comboGroups.length < S.traversalGroups.length := by
    rw [List.get?_eq_some] at h3
    exact h3.1
  have h3el : S.traversalGroups[g - S.sliderGroups.length - S.comboGroups.length] = gr := by
    rw [List.getElem?_eq_getElem hlt] at h3x
    exact Option.some.inj h3x
  rw [childrenOf]
  have hc : getItemRowCount S (some (Item.groupItem g)) = gr.items.length := by
    simp [getItemRowCount, groupSize, h1, h2, h3, h3x, h3el]
  rw [hc]
  refine filterMap_eq_map_of_some ?_
  intro r hr
  rw [List.mem_range] at hr
  simp [getChildItem, h1, h2, h3, h3x, h3el, hr]

theorem qsum_childrenOf_group_combo {S : SimplexD} {g : Nat} {gr : GroupOf ComboD}
    (h1 : ¬g < S.sliderGroups.length)
    (h2 : g < S.sliderGroups.length + S.comboGroups.length)
    (h3 : S.comboGroups.get? (g - S.sliderGroups.length) = some gr) :
    qsum S (childrenOf S (Item.groupItem g)) = (gr.items.map comboWeight).sum := by
  rw [childrenOf_group_combo h1 h2 h3, qsum, List.map_map]
  refine sum_range_map_of_get comboWeight gr.items _ ?_
  intro i a ha
  have h3x : S.comboGroups[g - S.sliderGroups.length]? = some gr := by simpa using h3
  have hax : gr.items[i]? = some a := by simpa using ha
  simp [itemWeight, lookupCombo, h3x, hax, Function.comp]

theorem qsum_childrenOf_group_trav {S : SimplexD} {g : Nat} {gr : GroupOf TravD}
    (h1 : ¬g < S.sliderGroups.length)
    (h2 : ¬g < S.sliderGroups.length + S.comboGroups.length)
    (h3 : S.traversalGroups.get? (g - S.sliderGroups.length - S.comboGroups.length) = some gr) :
    qsum S (childrenOf S (Item.groupItem g)) = (gr.items.map travWeight).sum := by
  rw [childrenOf_group_trav h1 h2 h3, qsum, List.map_map]
  refine sum_range_map_of_get travWeight gr.items _ ?_
  intro i a ha
  have h3x : S.traversalGroups[g - S.sliderGroups.length - S.comboGroups.length]? = some gr := by
    simpa using h3
  have hax : gr.items[i]? = some a := by simpa using ha
  simp [itemWeight, lookupTrav, h3x, hax, Function.comp]

theorem childrenOf_combo {S : SimplexD} {gi ci : Nat} {cb : ComboD}
    (h : lookupCombo S gi ci = some cb) :
    childrenOf S (Item.ctrlItem (Ctrl.combo gi ci)) =
      ((List.range cb.pairs.length).map fun r => Item.comboPairItem gi ci r) ++
        [Item.progressionItem (Ctrl.combo gi ci)] := by
  rw [childrenOf]
  have hc : getItemRowCount S (some (Item.ctrlItem (Ctrl.combo gi ci))) =
      cb.pairs.length + 1 := by
    simp [getItemRowCount, h]
  rw [hc, List.range_succ, List.filterMap_append]
  congr 1
  · refine filterMap_eq_map_of_some ?_
    intro r hr
    rw [List.mem_range] at hr
    simp [getChildItem, h, hr, Nat.ne_of_lt hr]
  · simp [List.filterMap_cons, getChildItem, h]

theorem childrenOf_trav {S : SimplexD} {gi ti : Nat} {tv : TravD}
    (h : lookupTrav S gi ti = some tv) :
    childrenOf S (Item.ctrlItem (Ctrl.trav gi ti)) =
      [Item.travPairItem gi ti TravSlot.progress,
       Item.travPairItem gi ti TravSlot.multiplier,
       Item.progressionItem (Ctrl.trav gi ti)] := by
  rw [childrenOf]
  have hc : getItemRowCount S (some (Item.ctrlItem (Ctrl.trav gi ti))) = 3 := by
    simp [getItemRowCount, h]
  rw [hc, show List.range 3 = [0, 1, 2] from rfl]
  simp [List.filterMap_cons, getChildItem, h]

theorem qsum_childrenOf_combo {S : SimplexD} {gi ci : Nat} {cb : ComboD}
    (h : lookupCombo S gi ci = some cb) :
    qsum S (childrenOf S (Item.ctrlItem (Ctrl.combo gi ci))) =
      cb.pairs.length + progWeight cb.prog := by
  rw [childrenOf_combo h, qsum_append]
  have hp : qsum S ((List.range cb.pairs.length).map fun r => Item.comboPairItem gi ci r) =
      cb.pairs.length := by
    rw [qsum, List.map_map]
    have he : ∀ y ∈ List.range cb.pairs.length,
        (itemWeight S ∘ fun r => Item.comboPairItem gi ci r) y = 1 := fun y _ => rfl
    rw [List.map_congr_left he, sum_map_one, List.length_range]
  have hq : qsum S [Item.progressionItem (Ctrl.combo gi ci)] = progWeight cb.prog := by
    simp [qsum, itemWeight, ctrlProg, h]
  rw [hp, hq]

theorem qsum_childrenOf_trav {S : SimplexD} {gi ti : Nat} {tv : TravD}
    (h : lookupTrav S gi ti = some tv) :
    qsum S (childrenOf S (Item.ctrlItem (Ctrl.trav gi ti))) = 2 + progWeight tv.prog := by
  rw [childrenOf_trav h]
  simp [qsum, itemWeight, ctrlProg, h]
  omega

theorem qsum_childrenOf_group_lt (S : SimplexD) (g : Nat) :
    qsum S (childrenOf S (Item.groupItem g)) < itemWeight S (Item.groupItem g) := by
  by_cases h1 : g < S.sliderGroups.length
  · obtain ⟨gr, hgr⟩ : ∃ gr, S.sliderGroups.get? g = some gr := ⟨_, List.get?_eq_get h1⟩
    rw [qsum_childrenOf_group h1 hgr]
    have h2x : S.sliderGroups[g]? = some gr := by simpa using hgr
    have hw : itemWeight S (Item.groupItem g) = 1 + (gr.items.map sliderWeight).sum := by
      simp [itemWeight, h1, h2x, sliderGroupWeight]
    omega
  · by_cases h2 : g < S.sliderGroups.length + S.comboGroups.length
    · have hlt : g - S.sliderGroups.length < S.comboGroups.length := by omega
      obtain ⟨gr, hgr⟩ : ∃ gr, S.comboGroups.get? (g - S.sliderGroups.length) = some gr :=
        ⟨_, List.get?_eq_get hlt⟩
      rw [qsum_childrenOf_group_combo h1 h2 hgr]
      have h3x : S.comboGroups[g - S.sliderGroups.length]? = some gr := by simpa using hgr
      have hw : itemWeight S (Item.groupItem g) = 1 + (gr.items.map comboWeight).sum := by
        simp [itemWeight, h1, h2, h3x, comboGroupWeight]
      omega
    · cases hgr : S.traversalGroups.get? (g - S.sliderGroups.length - S.comboGroups.length) with
      | none =>
          have hgx :
              S.traversalGroups[g - S.sliderGroups.length - S.comboGroups.length]? = none := by
            simpa using hgr
          have hc : childrenOf S (Item.groupItem g) = [] := by
            rw [childrenOf]
            have h0 : getItemRowCount S (some (Item.groupItem g)) = 0 := by
              simp [getItemRowCount, groupSize, h1, h2, hgr, hgx]
            rw [h0]
            rfl
          rw [hc]
          simp [qsum, itemWeight, h1, h2, hgx]
      | some gr =>
          rw [qsum_childrenOf_group_trav h1 h2 hgr]
          have h3x :
              S.traversalGroups[g - S.sliderGroups.length - S.comboGroups.length]? = some gr := by
            simpa using hgr
          have hw : itemWeight S (Item.groupItem g) = 1 + (gr.items.map travWeight).sum := by
            simp [itemWeight, h1, h2, h3x, travGroupWeight]
          omega

theorem qsum_childrenOf_ctrl_lt (S : SimplexD) (c : Ctrl) :
    qsum S (childrenOf S (Item.ctrlItem c)) < itemWeight S (Item.ctrlItem c) := by
  cases c with
  | slider gi si =>
      cases hsl : lookupSlider S gi si with
      | none =>
          have hc : childrenOf S (Item.ctrlItem (Ctrl.slider gi si)) = [] := by
            rw [childrenOf]
            have h0 : getItemRowCount S (some (Item.ctrlItem (Ctrl.slider gi si))) = 0 := by
              simp [getItemRowCount, hsl]
            rw [h0]
            rfl
          rw [hc]
          simp [qsum, itemWeight, hsl]
      | some sl =>
          rw [qsum_childrenOf_slider hsl]
          have hw : itemWeight S (Item.ctrlItem (Ctrl.slider gi si)) =
              1 + sl.prog.pairs.length := by
            simp [itemWeight, hsl, sliderWeight]
          omega
  | combo gi ci =>
      cases hcb : lookupCombo S gi ci with
      | none =>
          have hc : childrenOf S (Item.ctrlItem (Ctrl.combo gi ci)) = [] := by
            rw [childrenOf]
            have h0 : getItemRowCount S (some (Item.ctrlItem (Ctrl.combo gi ci))) = 0 := by
              simp [getItemRowCount, hcb]
            rw [h0]
            rfl
          rw [hc]
          simp [qsum, itemWeight, hcb]
      | some cb =>
          rw [qsum_childrenOf_combo hcb]
          have hw : itemWeight S (Item.ctrlItem (Ctrl.combo gi ci)) =
              1 + cb.pairs.length + progWeight cb.prog := by
            simp [itemWeight, hcb, comboWeight]
          omega
  | trav gi ti =>
      cases htv : lookupTrav S gi ti with
      | none =>
          have hc : childrenOf S (Item.ctrlItem (Ctrl.trav gi ti)) = [] := by
            rw [childrenOf]
            have h0 : getItemRowCount S (some (Item.ctrlItem (Ctrl.trav gi ti))) = 0 := by
              simp [getItemRowCount, htv]
            rw [h0]
            rfl
          rw [hc]
          simp [qsum, itemWeight, htv]
      | some tv =>
          rw [qsum_childrenOf_trav htv]
          have hw : itemWeight S (Item.ctrlItem (Ctrl.trav gi ti)) = 3 + progWeight tv.prog := by
            simp [itemWeight, htv, travWeight]
          omega

theorem mem_collect_rearrange {A B C : Prop} : ((A ∨ B) ∨ C) ↔ A ∨ (C ∨ B) := by
  tauto

/-- Correctness of the coercion descent loop on every queue free of the
root item: it returns the accumulator plus everything `collectsGen`
deems below a queue entry. -/
theorem coerceLoopF_mem_gen (S : SimplexD) :
    ∀ (fuel : Nat) (queue acc : List Item) (x : Item),
      (∀ q ∈ queue, q ≠ Item.simplexItem) → qsum S queue < fuel →
      (x ∈ coerceLoopF S 3 fuel queue acc ↔ x ∈ acc ∨ ∃ q ∈ queue, collectsGen S q x) := by
  intro fuel
  induction fuel with
  | zero =>
      intro queue acc x hq hlt
      exact absurd hlt (Nat.not_lt_zero _)
  | succ n ih =>
      intro queue acc x hq hlt
      cases hql : queue.getLast? with
      | none =>
          rw [List.getLast?_eq_none_iff] at hql
          subst hql
          simp [coerceLoopF]
      | some q0 =>
          obtain ⟨L, rfl⟩ : ∃ L, queue = L ++ [q0] :=
            ⟨queue.dropLast, (List.dropLast_append_getLast? q0 hql).symm⟩
          have hq0 : q0 ≠ Item.simplexItem := hq q0 (by simp)
          have hL : ∀ q ∈ L, q ≠ Item.simplexItem := fun q hqm =>
            hq q (List.mem_append_left _ hqm)
          have hsum : qsum S (L ++ [q0]) = qsum S L + itemWeight S q0 := by
            rw [qsum_append]
            simp [qsum]
          rw [coerceLoopF_step S 3 n (L ++ [q0]) acc q0 (List.getLast?_concat L),
            List.dropLast_concat]
          cases q0 with
          | simplexItem => exact absurd rfl hq0
          | groupItem g =>
              rw [if_pos (by simp [classDepth])]
              have hinv : ∀ q ∈ L ++ childrenOf S (Item.groupItem g),
                  q ≠ Item.simplexItem := by
                intro q hqm
                rcases List.mem_append.mp hqm with hm | hm
                · exact hL q hm
                · exact childrenOf_ne_simplexItem hm
              have hfuel : qsum S (L ++ childrenOf S (Item.groupItem g)) < n := by
                rw [qsum_append]
                have hq2 := qsum_childrenOf_group_lt S g
                rw [hsum] at hlt
                omega
              rw [ih _ acc x hinv hfuel, exists_mem_append_iff, exists_mem_append_iff,
                collects_childrenOf_group_gen S g x]
              simp only [List.mem_singleton, exists_eq_left]
          | ctrlItem c =>
              rw [if_pos (by simp [classDepth])]
              have hinv : ∀ q ∈ L ++ childrenOf S (Item.ctrlItem c),
                  q ≠ Item.simplexItem := by
                intro q hqm
                rcases List.mem_append.mp hqm with hm | hm
                · exact hL q hm
                · exact childrenOf_ne_simplexItem hm
              have hfuel : qsum S (L ++ childrenOf S (Item.ctrlItem c)) < n := by
                rw [qsum_append]
                have hq2 := qsum_childrenOf_ctrl_lt S c
                rw [hsum] at hlt
                omega
              rw [ih _ acc x hinv hfuel, exists_mem_append_iff, exists_mem_append_iff,
                collects_childrenOf_ctrl S c x]
              simp only [List.mem_singleton, exists_eq_left]
              exact Iff.rfl
          | comboPairItem gi ci pi =>
              rw [if_neg (by simp [classDepth]),
                if_pos (show classDepth (Item.comboPairItem gi ci pi) = 3 from rfl)]
              have hfuel : qsum S L < n := by
                have hw : itemWeight S (Item.comboPairItem gi ci pi) = 1 := rfl
                rw [hsum, hw] at hlt
                omega
              rw [ih L (acc ++ [Item.comboPairItem gi ci pi]) x hL hfuel,
                exists_mem_append_iff, List.mem_append, List.mem_singleton]
              simp only [List.mem_singleton, exists_eq_left]
              rw [show collectsGen S (Item.comboPairItem gi ci pi) x ↔
                  x = Item.comboPairItem gi ci pi from Iff.rfl]
              exact mem_collect_rearrange
          | travPairItem gi ti slot =>
              rw [if_neg (by simp [classDepth]),
                if_pos (show classDepth (Item.travPairItem gi ti slot) = 3 from rfl)]
              have hfuel : qsum S L < n := by
                have hw : itemWeight S (Item.travPairItem gi ti slot) = 1 := rfl
                rw [hsum, hw] at hlt
                omega
              rw [ih L (acc ++ [Item.travPairItem gi ti slot]) x hL hfuel,
                exists_mem_append_iff, List.mem_append, List.mem_singleton]
              simp only [List.mem_singleton, exists_eq_left]
              rw [show collectsGen S (Item.travPairItem gi ti slot) x ↔
                  x = Item.travPairItem gi ti slot from Iff.rfl]
              exact mem_collect_rearrange
          | progressionItem c =>
              rw [if_neg (by simp [classDepth]),
                if_pos (show classDepth (Item.progressionItem c) = 3 from rfl)]
              have hfuel : qsum S L < n := by
                have hw : itemWeight S (Item.progressionItem c) =
                    ((ctrlProg S c).map progWeight).getD 1 := rfl
                have hw1 : 1 ≤ itemWeight S (Item.progressionItem c) := by
                  rw [hw]
                  cases ctrlProg S c <;> simp [progWeight]
                rw [hsum] at hlt
                omega
              rw [ih L (acc ++ [Item.progressionItem c]) x hL hfuel,
                exists_mem_append_iff, List.mem_append, List.mem_singleton]
              simp only [List.mem_singleton, exists_eq_left]
              rw [show collectsGen S (Item.progressionItem c) x ↔
                  x = Item.progressionItem c from Iff.rfl]
              exact mem_collect_rearrange
          | progPairItem c pi =>
              rw [if_neg (by simp [classDepth]),
                if_pos (show classDepth (Item.progPairItem c pi) = 3 from rfl)]
              have hfuel : qsum S L < n := by
                have hw : itemWeight S (Item.progPairItem c pi) = 1 := rfl
                rw [hsum, hw] at hlt
                omega
              rw [ih L (acc ++ [Item.progPairItem c pi]) x hL hfuel,
                exists_mem_append_iff, List.mem_append, List.mem_singleton]
              simp only [List.mem_singleton, exists_eq_left]
              rw [show collectsGen S (Item.progPairItem c pi) x ↔
                  x = Item.progPairItem c pi from Iff.rfl]
              exact mem_collect_rearrange

/-- General instance of the descent on any group index: membership in
`coerceIndexToChildType` of exactly the direct children of the group's
controls. -/
theorem coerce_child_group_gen (S : SimplexD) (g : Nat) (x : Item) :
    x ∈ coerceIndexToChildType S [Item.groupItem g] 3 ↔
      ∃ c ∈ childrenOf S (Item.groupItem g), x ∈ childrenOf S c := by
  rw [coerceIndexToChildType, List.mem_dedup]
  have hform : ([Item.groupItem g].flatMap fun idx =>
      if classDepth idx < 3 then coerceLoopF S 3 (qsum S [idx] + 1) [idx] []
      else if classDepth idx = 3 then [idx]
      else []) =
      coerceLoopF S 3 (qsum S [Item.groupItem g] + 1) [Item.groupItem g] [] := by
    simp [classDepth]
  rw [hform, coerceLoopF_mem_gen S (qsum S [Item.groupItem g] + 1) [Item.groupItem g] [] x
    (by
      intro q hqm
      rw [List.mem_singleton] at hqm
      subst hqm
      exact fun hc => Item.noConfusion hc)
    (Nat.lt_succ_self _)]
  simp only [List.not_mem_nil, false_or, List.mem_singleton, exists_eq_left]
  exact Iff.rfl

/-- Membership in `coerceIndexToType` of a single group index equals
membership in the downward coercion (the upward one is empty here). -/
theorem mem_coerceIndexToType_group (S : SimplexD) (g : Nat) (x : Item) :
    x ∈ coerceIndexToType S [Item.groupItem g] 3 ↔
      x ∈ coerceIndexToChildType S [Item.groupItem g] 3 := by
  have hform : coerceIndexToType S [Item.groupItem g] 3 =
      ([] ++ coerceIndexToChildType S [Item.groupItem g] 3 ++
        coerceIndexToParentType S [] 3).dedup := rfl
  rw [hform, List.mem_dedup]
  have hpar : coerceIndexToParentType S [] 3 = [] := rfl
  rw [hpar, List.append_nil, List.nil_append]

/-- Progression of the first example slider: three shape pairs. -/
def progA8 : Prog :=
  { name := "progA"
    pairs := [{ name := "shA0", value := 0, isRest := true },
              { name := "shA1", value := 1, isRest := false },
              { name := "shA2", value := 2, isRest := false }]
    falloffs := [] }

/-- Progression of the second example slider: two shape pairs. -/
def progB8 : Prog :=
  { name := "progB"
    pairs := [{ name := "shB0", value := 0, isRest := true },
              { name := "shB1", value := 1, isRest := false }]
    falloffs := [] }

/-- A rig with one slider group holding 2 sliders with 3 and 2
shape-target pairs respectively — the claim's concrete instance. -/
def exS8 : SimplexD :=
  { name := "rig8"
    sliderGroups := [⟨"grp8", [⟨"sliderA", 0, true, progA8⟩, ⟨"sliderB", 0, true, progB8⟩]⟩]
    comboGroups := []
    traversalGroups := [] }

/-- **C8** counterexample: on the rig `bugS` the single Group-level
index 0 denotes a combo group; the shape pair at row 0 of the combo's
Progression has the target depth and is reachable under that group
(group → combo → progression → shape pair), yet coercing the group index
two levels deeper omits it — the descent collects the Progression and
stops there, so not all target-depth items reachable under the group are
returned. -/
theorem c8_counterexample :
    getChildItem bugS (some (Item.groupItem 0)) 0 =
      some (Item.ctrlItem (Ctrl.combo 0 0)) ∧
    getChildItem bugS (some (Item.ctrlItem (Ctrl.combo 0 0))) 1 =
      some (Item.progressionItem (Ctrl.combo 0 0)) ∧
    getChildItem bugS (some (Item.progressionItem (Ctrl.combo 0 0))) 0 =
      some (Item.progPairItem (Ctrl.combo 0 0) 0) ∧
    classDepth (Item.progPairItem (Ctrl.combo 0 0) 0) = 3 ∧
    Item.progressionItem (Ctrl.combo 0 0) ∈ coerceIndexToType bugS [Item.groupItem 0] 3 ∧
    Item.progPairItem (Ctrl.combo 0 0) 0 ∉ coerceIndexToType bugS [Item.groupItem 0] 3 := by
  decide

/-- **C8.** (amended) Coercing a selection holding a single Group-level
index to the type two levels deeper returns, de-duplicated, exactly the
direct children of the controls under that group: the descent expands
only items strictly shallower than the target depth and stops at the
first target-depth item on each branch, so target-depth items nested
beneath another target-depth item are omitted.  For a slider group this
is exactly the set of shape-target (ProgPair) paths reachable under the
group; on a group holding 2 sliders with 3 and 2 shape targets it yields
exactly 5 indices. -/
theorem c8_group_selection_coercion :
    (∀ (S : SimplexD) (g : Nat),
      (coerceIndexToType S [Item.groupItem g] 3).Nodup ∧
        ∀ x, x ∈ coerceIndexToType S [Item.groupItem g] 3 ↔
          ∃ c ∈ childrenOf S (Item.groupItem g), x ∈ childrenOf S c) ∧
    (∀ (S : SimplexD) (g : Nat), g < S.sliderGroups.length →
      ∀ x, x ∈ coerceIndexToType S [Item.groupItem g] 3 ↔
        ∃ si pi sl, lookupSlider S g si = some sl ∧ pi < sl.prog.pairs.length ∧
          x = Item.progPairItem (Ctrl.slider g si) pi) ∧
    (coerceIndexToType exS8 [Item.groupItem 0] 3).length = 5 := by
  refine ⟨?_, ?_, by decide⟩
  · intro S g
    refine ⟨List.nodup_dedup _, ?_⟩
    intro x
    rw [mem_coerceIndexToType_group]
    exact coerce_child_group_gen S g x
  · intro S g hg x
    rw [mem_coerceIndexToType_group]
    exact coerce_child_group S g hg x

/-- Witness for C8 on the concrete rig: the coerced selection is
duplicate-free and contains the second shape pair of the second
slider. -/
theorem c8_group_selection_coercion_witness :
    (coerceIndexToType exS8 [Item.groupItem 0] 3).Nodup ∧
    Item.progPairItem (Ctrl.slider 0 1) 1 ∈ coerceIndexToType exS8 [Item.groupItem 0] 3 :=
  ⟨(c8_group_selection_coercion.1 exS8 0).1,
   (c8_group_selection_coercion.2.1 exS8 0 (by decide)
      (Item.progPairItem (Ctrl.slider 0 1) 1)).mpr
     ⟨1, 1, ⟨"sliderB", 0, true, progB8⟩, rfl, by decide, rfl⟩⟩

/-! ### Nested updates of the domain graph -/

/-- Replace the slider at a path by `f` of it (mutating through a
resolved object reference; a dangling path denotes no live object and is
a no-op). -/
def updateSlider (S : SimplexD) (gi si : Nat) (f : SliderD → SliderD) : SimplexD :=
  { S with sliderGroups :=
      S.sliderGroups.modify (fun gr => { gr with items := gr.items.modify f si }) gi }

/-- Replace the combo at a path by `f` of it. -/
def updateCombo (S : SimplexD) (gi ci : Nat) (f : ComboD → ComboD) : SimplexD :=
  { S with comboGroups :=
      S.comboGroups.modify (fun gr => { gr with items := gr.items.modify f ci }) gi }

/-- Replace the traversal at a path by `f` of it. -/
def updateTrav (S : SimplexD) (gi ti : Nat) (f : TravD → TravD) : SimplexD :=
  { S with traversalGroups :=
      S.traversalGroups.modify (fun gr => { gr with items := gr.items.modify f ti }) gi }

theorem lookupSlider_updateSlider_self {S : SimplexD} {gi si : Nat} {sl : SliderD}
    (f : SliderD → SliderD) (h : lookupSlider S gi si = some sl) :
    lookupSlider (updateSlider S gi si f) gi si = some (f sl) := by
  rw [lookupSlider] at h
  cases hg : S.sliderGroups.get? gi with
  | none => rw [hg] at h; cases h
  | some gr =>
      rw [hg] at h
      simp only [Option.some_bind] at h
      have hgx : S.sliderGroups[gi]? = some gr := by simpa using hg
      have hx : gr.items[si]? = some sl := by simpa using h
      simp [lookupSlider, updateSlider, List.getElem?_modify, hgx, hx]

theorem lookupSlider_updateSlider_ne {S : SimplexD} {gi si gj sj : Nat}
    (f : SliderD → SliderD) (hne : ¬(gj = gi ∧ sj = si)) :
    lookupSlider (updateSlider S gi si f) gj sj = lookupSlider S gj sj := by
  by_cases hg : gi = gj
  · subst hg
    have hs : ¬(si = sj) := fun hc => hne ⟨rfl, hc.symm⟩
    simp only [lookupSlider, updateSlider, List.get?_modifyNth]
    cases S.sliderGroups.get? gi <;> simp [hs]
  · simp only [lookupSlider, updateSlider, List.get?_modifyNth]
    cases S.sliderGroups.get? gj <;> simp [hg]

/-! ### `FalloffModel` (claim C9) -/

/-- A slider reference: (group index, slider index). -/
abbrev SliderRef := Nat × Nat

/-- `slider.prog.falloffs` for a slider reference (empty on dangling
references). -/
def falloffsOfSlider (S : SimplexD) (r : SliderRef) : List Nat :=
  ((lookupSlider S r.1 r.2).map fun sl => sl.prog.falloffs).getD []

/-- The `_checks` entry `FalloffModel.setSliders` builds for one falloff:
each selected slider, once per occurrence of the falloff in that slider's
falloff list, in selection order. -/
def checksOf (S : SimplexD) (sliders : List SliderRef) (fo : Nat) : List SliderRef :=
  sliders.flatMap fun s => ((falloffsOfSlider S s).filter fun f => f = fo).map fun _ => s

/-- Qt check states. -/
inductive CheckSt where
  | checked
  | unchecked
  | halfChecked
deriving DecidableEq, Repr

/-- `FalloffModel._getCheckState`. -/
def getCheckState (S : SimplexD) (sliders : List SliderRef) (fo : Nat) : CheckSt :=
  let sli := checksOf S sliders fo
  if sli.length = sliders.length then CheckSt.checked
  else if sli.length = 0 then CheckSt.unchecked
  else CheckSt.halfChecked

/-- Modelled from the spec: `Progression.addFalloff` lives in
`interfaceItems.py`, which is not part of this snapshot; per the spec it
adds the falloff to the progression's falloff set, embedded here as an
append to the falloff list. -/
def addFalloffToSlider (S : SimplexD) (r : SliderRef) (fo : Nat) : SimplexD :=
  updateSlider S r.1 r.2 fun sl =>
    { sl with prog := { sl.prog with falloffs := sl.prog.falloffs ++ [fo] } }

/-- `FalloffModel.setData` with `Qt.Checked`: walk the selected sliders
and add the falloff to each one whose progression does not already have
it. -/
def falloffSetChecked : SimplexD → List SliderRef → Nat → SimplexD
  | S, [], _ => S
  | S, s :: rest, fo =>
      if fo ∈ falloffsOfSlider S s then falloffSetChecked S rest fo
      else falloffSetChecked (addFalloffToSlider S s fo) rest fo

theorem length_filter_eq_iff {α : Type} {p : α → Bool} {l : List α} :
    (l.filter p).length = l.length ↔ ∀ a ∈ l, p a = true := by
  constructor
  · intro h
    rw [← List.filter_eq_self]
    exact (List.filter_sublist l).eq_of_length_le (le_of_eq h.symm)
  · intro h
    rw [List.filter_eq_self.mpr h]

theorem length_filter_zero_iff {α : Type} {p : α → Bool} {l : List α} :
    (l.filter p).length = 0 ↔ ∀ a ∈ l, ¬p a = true := by
  rw [List.length_eq_zero]
  exact List.filter_eq_nil_iff

theorem filter_eq_length_nodup {l : List Nat} (h : l.Nodup) (fo : Nat) :
    (l.filter fun f => f = fo).length = if fo ∈ l then 1 else 0 := by
  induction l with
  | nil => simp
  | cons a tl ih =>
      rw [List.nodup_cons] at h
      by_cases ha : a = fo
      · subst ha
        have hnm : a ∉ tl := h.1
        simp [List.filter_cons, ih h.2, hnm, List.mem_cons]
      · have hfo : ¬fo = a := fun hc => ha hc.symm
        simp [List.filter_cons, ha, ih h.2, hfo, List.mem_cons]

theorem checksOf_length (S : SimplexD) (fo : Nat) :
    ∀ sliders : List SliderRef,
      (∀ r ∈ sliders, (falloffsOfSlider S r).Nodup) →
      (checksOf S sliders fo).length =
        (sliders.filter fun r => decide (fo ∈ falloffsOfSlider S r)).length := by
  intro sliders
  induction sliders with
  | nil => intro _; rfl
  | cons s tl ih =>
      intro hnd
      have iht := ih fun r hr => hnd r (List.mem_cons_of_mem _ hr)
      rw [checksOf] at iht ⊢
      rw [List.flatMap_cons, List.length_append, List.length_map,
        filter_eq_length_nodup (hnd s (by simp)) fo, List.filter_cons, iht]
      by_cases hm : fo ∈ falloffsOfSlider S s
      · simp [hm, Nat.add_comm]
      · simp [hm]

/-- Full characterization of `updateSlider` under `lookupSlider`. -/
theorem lookupSlider_updateSlider (S : SimplexD) (gi si : Nat) (f : SliderD → SliderD)
    (gj sj : Nat) :
    lookupSlider (updateSlider S gi si f) gj sj =
      if gj = gi ∧ sj = si then (lookupSlider S gj sj).map f
      else lookupSlider S gj sj := by
  by_cases h : gj = gi ∧ sj = si
  · obtain ⟨rfl, rfl⟩ := h
    rw [if_pos ⟨rfl, rfl⟩]
    cases hl : lookupSlider S gj sj with
    | none =>
        rw [lookupSlider] at hl
        simp only [lookupSlider, updateSlider, List.get?_modifyNth]
        cases hg : S.sliderGroups.get? gj with
        | none => simp [hg]
        | some gr =>
            rw [hg] at hl
            simp only [Option.some_bind] at hl
            simp [hg, List.get?_modifyNth, hl]
            exact List.get?_eq_none.mp hl
    | some sl => exact lookupSlider_updateSlider_self f hl
  · rw [if_neg h]
    exact lookupSlider_updateSlider_ne f h

/-- `addFalloff` through one slider reference: the target slider's
falloff list gains `fo` at its end, every other slider is untouched. -/
theorem falloffsOfSlider_add (S : SimplexD) (r : SliderRef) (fo : Nat)
    (hv : (lookupSlider S r.1 r.2).isSome = true) (r2 : SliderRef) :
    falloffsOfSlider (addFalloffToSlider S r fo) r2 =
      if r2 = r then falloffsOfSlider S r ++ [fo] else falloffsOfSlider S r2 := by
  rw [falloffsOfSlider, addFalloffToSlider, lookupSlider_updateSlider]
  by_cases he : r2 = r
  · subst he
    rw [if_pos ⟨rfl, rfl⟩, if_pos rfl]
    obtain ⟨sl, hsl⟩ := Option.isSome_iff_exists.mp hv
    simp [falloffsOfSlider, hsl]
  · have hne2 : ¬(r2.1 = r.1 ∧ r2.2 = r.2) := fun hc => he (Prod.ext hc.1 hc.2)
    rw [if_neg hne2, if_neg he, falloffsOfSlider]

/-- Effect of the toggle-to-checked loop on every slider reference:
exactly the selected sliders missing the falloff gain it (appended),
everything else is unchanged. -/
theorem falloffSetChecked_spec (fo : Nat) :
    ∀ (sliders : List SliderRef) (S : SimplexD),
      sliders.Nodup →
      (∀ r ∈ sliders, (lookupSlider S r.1 r.2).isSome = true) →
      ∀ r2, falloffsOfSlider (falloffSetChecked S sliders fo) r2 =
        if r2 ∈ sliders ∧ fo ∉ falloffsOfSlider S r2 then falloffsOfSlider S r2 ++ [fo]
        else falloffsOfSlider S r2 := by
  intro sliders
  induction sliders with
  | nil =>
      intro S _ _ r2
      simp [falloffSetChecked]
  | cons s tl ih =>
      intro S hnd hv r2
      rw [List.nodup_cons] at hnd
      rw [falloffSetChecked]
      by_cases hm : fo ∈ falloffsOfSlider S s
      · rw [if_pos hm]
        rw [ih S hnd.2 (fun r hr => hv r (List.mem_cons_of_mem _ hr)) r2]
        by_cases h2 : r2 = s
        · subst h2
          simp [hm, List.mem_cons]
        · simp [List.mem_cons, h2]
      · rw [if_neg hm]
        have hvs : (lookupSlider S s.1 s.2).isSome = true := hv s (by simp)
        have hfa := falloffsOfSlider_add S s fo hvs
        have hv2 : ∀ r ∈ tl,
            (lookupSlider (addFalloffToSlider S s fo) r.1 r.2).isSome = true := by
          intro r hr
          rw [addFalloffToSlider, lookupSlider_updateSlider]
          by_cases hc : r.1 = s.1 ∧ r.2 = s.2
          · rw [if_pos hc]
            simp [Option.isSome_map, hv r (List.mem_cons_of_mem _ hr)]
          · rw [if_neg hc]
            exact hv r (List.mem_cons_of_mem _ hr)
        rw [ih (addFalloffToSlider S s fo) hnd.2 hv2 r2]
        by_cases h2 : r2 = s
        · subst h2
          have hnotin : r2 ∉ tl := hnd.1
          simp [hnotin, hfa, hm, List.mem_cons]
        · have hfa2 : falloffsOfSlider (addFalloffToSlider S s fo) r2 =
              falloffsOfSlider S r2 := by
            rw [hfa r2, if_neg h2]
          rw [hfa2]
          simp [List.mem_cons, h2]

/-- **C9.** For a non-empty selection of distinct valid sliders (with
duplicate-free falloff lists): the falloff's checkbox state is checked
iff every selected slider references it, unchecked iff none does,
partial otherwise; and toggling to checked adds the falloff to exactly
the selected sliders missing it, leaving the others (and unselected
sliders) untouched. -/
theorem c9_falloff_checkstate_and_toggle (S : SimplexD) (sliders : List SliderRef) (fo : Nat)
    (hne : sliders ≠ [])
    (hnodup : sliders.Nodup)
    (hv : ∀ r ∈ sliders, (lookupSlider S r.1 r.2).isSome = true)
    (hnd : ∀ r ∈ sliders, (falloffsOfSlider S r).Nodup) :
    (getCheckState S sliders fo = CheckSt.checked ↔
      ∀ r ∈ sliders, fo ∈ falloffsOfSlider S r) ∧
    (getCheckState S sliders fo = CheckSt.unchecked ↔
      ∀ r ∈ sliders, fo ∉ falloffsOfSlider S r) ∧
    (getCheckState S sliders fo = CheckSt.halfChecked ↔
      ((∃ r ∈ sliders, fo ∈ falloffsOfSlider S r) ∧
        ∃ r ∈ sliders, fo ∉ falloffsOfSlider S r)) ∧
    ∀ r2, falloffsOfSlider (falloffSetChecked S sliders fo) r2 =
      if r2 ∈ sliders ∧ fo ∉ falloffsOfSlider S r2 then falloffsOfSlider S r2 ++ [fo]
      else falloffsOfSlider S r2 := by
  have hlen := checksOf_length S fo sliders hnd
  have hiff1 : (checksOf S sliders fo).length = sliders.length ↔
      ∀ r ∈ sliders, fo ∈ falloffsOfSlider S r := by
    rw [hlen, length_filter_eq_iff]
    simp
  have hiff2 : (checksOf S sliders fo).length = 0 ↔
      ∀ r ∈ sliders, fo ∉ falloffsOfSlider S r := by
    rw [hlen, length_filter_zero_iff]
    simp
  have hlen0 : sliders.length ≠ 0 := fun hc => hne (List.length_eq_zero.mp hc)
  have hgdef : getCheckState S sliders fo =
      (if (checksOf S sliders fo).length = sliders.length then CheckSt.checked
       else if (checksOf S sliders fo).length = 0 then CheckSt.unchecked
       else CheckSt.halfChecked) := rfl
  refine ⟨?_, ?_, ?_, falloffSetChecked_spec fo sliders S hnodup hv⟩
  · constructor
    · intro hcs
      rw [hgdef] at hcs
      by_cases h1 : (checksOf S sliders fo).length = sliders.length
      · exact hiff1.mp h1
      · rw [if_neg h1] at hcs
        by_cases h2 : (checksOf S sliders fo).length = 0
        · rw [if_pos h2] at hcs
          cases hcs
        · rw [if_neg h2] at hcs
          cases hcs
    · intro hall
      rw [hgdef, if_pos (hiff1.mpr hall)]
  · constructor
    · intro hcs
      rw [hgdef] at hcs
      by_cases h1 : (checksOf S sliders fo).length = sliders.length
      · rw [if_pos h1] at hcs
        cases hcs
      · rw [if_neg h1] at hcs
        by_cases h2 : (checksOf S sliders fo).length = 0
        · exact hiff2.mp h2
        · rw [if_neg h2] at hcs
          cases hcs
    · intro hnone
      have h2 := hiff2.mpr hnone
      have h1 : (checksOf S sliders fo).length ≠ sliders.length := by
        rw [h2]
        exact fun hc => hlen0 hc.symm
      rw [hgdef, if_neg h1, if_pos h2]
  · constructor
    · intro hcs
      rw [hgdef] at hcs
      by_cases h1 : (checksOf S sliders fo).length = sliders.length
      · rw [if_pos h1] at hcs
        cases hcs
      · rw [if_neg h1] at hcs
        by_cases h2 : (checksOf S sliders fo).length = 0
        · rw [if_pos h2] at hcs
          cases hcs
        · constructor
          · by_contra hno
            push_neg at hno
            exact h2 (hiff2.mpr hno)
          · by_contra hno
            push_neg at hno
            exact h1 (hiff1.mpr hno)
    · rintro ⟨⟨r1, hr1, hm1⟩, r2, hr2, hm2⟩
      have h1 : ¬(checksOf S sliders fo).length = sliders.length :=
        fun hc => hm2 (hiff1.mp hc r2 hr2)
      have h2 : ¬(checksOf S sliders fo).length = 0 :=
        fun hc => (hiff2.mp hc r1 hr1) hm1
      rw [hgdef, if_neg h1, if_neg h2]

/-- A rig with three sliders: the first two reference falloff 7, the
third does not. -/
def exS9 : SimplexD :=
  { name := "rig9"
    sliderGroups := [⟨"grp9",
      [⟨"slider90", 0, true, ⟨"prg90", [], [7]⟩⟩,
       ⟨"slider91", 0, true, ⟨"prg91", [], [7]⟩⟩,
       ⟨"slider92", 0, true, ⟨"prg92", [], []⟩⟩]⟩]
    comboGroups := []
    traversalGroups := [] }

/-- Witness for C9 on `exS9`: falloff 7 referenced by 2 of 3 selected
sliders reports partial; toggling to checked appends it to the missing
slider only. -/
theorem c9_falloff_checkstate_and_toggle_witness :
    getCheckState exS9 [(0, 0), (0, 1), (0, 2)] 7 = CheckSt.halfChecked ∧
    falloffsOfSlider (falloffSetChecked exS9 [(0, 0), (0, 1), (0, 2)] 7) (0, 2) =
      falloffsOfSlider exS9 (0, 2) ++ [7] ∧
    falloffsOfSlider (falloffSetChecked exS9 [(0, 0), (0, 1), (0, 2)] 7) (0, 0) =
      falloffsOfSlider exS9 (0, 0) := by
  obtain ⟨hA, hB, hC, hD⟩ := c9_falloff_checkstate_and_toggle exS9 [(0, 0), (0, 1), (0, 2)] 7
    (by decide) (by decide) (by decide) (by decide)
  refine ⟨?_, ?_, ?_⟩
  · exact hC.mpr ⟨⟨(0, 0), by decide, by decide⟩, ⟨(0, 2), by decide, by decide⟩⟩
  · rw [hD (0, 2), if_pos (by decide)]
  · rw [hD (0, 0), if_neg (by decide)]

/-! ### `SimplexModel.setData` (claim C10) -/

/-- The Qt item roles `setData` dispatches on. -/
inductive Role where
  | displayRole
  | editRole
  | checkStateRole
deriving DecidableEq, Repr

/-- A dynamically typed Qt value handed to `setData`. -/
inductive QVal where
  | str (s : String)
  | num (v : Int)
  | check (c : CheckSt)
deriving DecidableEq, Repr

def QVal.asString : QVal → String
  | QVal.str s => s
  | _ => ""

def QVal.asInt : QVal → Int
  | QVal.num v => v
  | _ => 0

def updatePairs (pr : Prog) (pi : Nat) (f : ProgPairD → ProgPairD) : Prog :=
  { pr with pairs := pr.pairs.modify f pi }

def updateProgPair (S : SimplexD) (c : Ctrl) (pi : Nat) (f : ProgPairD → ProgPairD) :
    SimplexD :=
  match c with
  | Ctrl.slider gi si =>
      updateSlider S gi si fun sl => { sl with prog := updatePairs sl.prog pi f }
  | Ctrl.combo gi ci =>
      updateCombo S gi ci fun cb => { cb with prog := updatePairs cb.prog pi f }
  | Ctrl.trav gi ti =>
      updateTrav S gi ti fun tv => { tv with prog := updatePairs tv.prog pi f }

def updateComboPair (S : SimplexD) (gi ci pi : Nat) (f : ComboPairD → ComboPairD) :
    SimplexD :=
  updateCombo S gi ci fun cb => { cb with pairs := cb.pairs.modify f pi }

def updateTravPair (S : SimplexD) (gi ti : Nat) (slot : TravSlot)
    (f : TravPairD → TravPairD) : SimplexD :=
  updateTrav S gi ti fun tv =>
    match slot with
    | TravSlot.progress => { tv with progressCtrl := f tv.progressCtrl }
    | TravSlot.multiplier => { tv with multiplierCtrl := f tv.multiplierCtrl }

/-- `SimplexModel.setData`, returning the mutated rig, the method's
return value, and whether a `dataChanged` notification was emitted. -/
def setDataModel (S : SimplexD) (item : Item) (column : Nat) (v : QVal) (role : Role) :
    SimplexD × Bool × Bool :=
  match role with
  | Role.checkStateRole =>
      if column = 0 then
        match item with
        | Item.ctrlItem (Ctrl.slider gi si) =>
            (updateSlider S gi si fun sl =>
              { sl with enabled := v == QVal.check CheckSt.checked }, true, true)
        | Item.ctrlItem (Ctrl.combo gi ci) =>
            (updateCombo S gi ci fun cb =>
              { cb with enabled := v == QVal.check CheckSt.checked }, true, true)
        | Item.ctrlItem (Ctrl.trav gi ti) =>
            (updateTrav S gi ti fun tv =>
              { tv with enabled := v == QVal.check CheckSt.checked }, true, true)
        | _ => (S, false, false)
      else (S, false, false)
  | Role.editRole =>
      if column = 0 then
        match item with
        | Item.ctrlItem (Ctrl.slider gi si) =>
            (updateSlider S gi si fun sl => { sl with name := v.asString }, true, true)
        | Item.ctrlItem (Ctrl.combo gi ci) =>
            (updateCombo S gi ci fun cb => { cb with name := v.asString }, true, true)
        | Item.ctrlItem (Ctrl.trav gi ti) =>
            (updateTrav S gi ti fun tv => { tv with name := v.asString }, true, true)
        | Item.progPairItem c pi =>
            (updateProgPair S c pi fun p => { p with name := v.asString }, true, true)
        | _ => (S, false, false)
      else if column = 1 then
        match item with
        | Item.ctrlItem (Ctrl.slider gi si) =>
            (updateSlider S gi si fun sl => { sl with value := v.asInt }, false, false)
        | Item.comboPairItem gi ci pi =>
            (updateComboPair S gi ci pi fun p => { p with value := v.asInt }, false, false)
        | Item.travPairItem gi ti slot =>
            (updateTravPair S gi ti slot fun p => { p with value := v.asInt }, false, false)
        | _ => (S, false, false)
      else if column = 2 then
        match item with
        | Item.progPairItem c pi =>
            (updateProgPair S c pi fun p => { p with value := v.asInt }, false, false)
        | _ => (S, false, false)
      else (S, false, false)
  | Role.displayRole => (S, false, false)

def isCtrlItem : Item → Bool
  | Item.ctrlItem _ => true
  | _ => false

def isProgPairItem : Item → Bool
  | Item.progPairItem _ _ => true
  | _ => false

def sliderValueAt (S : SimplexD) (gi si : Nat) : Option Int :=
  (lookupSlider S gi si).map fun sl => sl.value

def comboPairValueAt (S : SimplexD) (gi ci pi : Nat) : Option Int :=
  ((lookupCombo S gi ci).bind fun cb => cb.pairs.get? pi).map fun p => p.value

def travPairValueAt (S : SimplexD) (gi ti : Nat) (slot : TravSlot) : Option Int :=
  (lookupTrav S gi ti).map fun tv => (travSlotPair tv slot).value

def progPairValueAt (S : SimplexD) (c : Ctrl) (pi : Nat) : Option Int :=
  ((ctrlProg S c).bind fun pr => pr.pairs.get? pi).map fun p => p.value

theorem lookupCombo_updateCombo_self {S : SimplexD} {gi ci : Nat} {cb : ComboD}
    (f : ComboD → ComboD) (h : lookupCombo S gi ci = some cb) :
    lookupCombo (updateCombo S gi ci f) gi ci = some (f cb) := by
  rw [lookupCombo] at h
  cases hg : S.comboGroups.get? gi with
  | none => rw [hg] at h; cases h
  | some gr =>
      rw [hg] at h
      simp only [Option.some_bind] at h
      have hgx : S.comboGroups[gi]? = some gr := by simpa using hg
      have hx : gr.items[ci]? = some cb := by simpa using h
      simp [lookupCombo, updateCombo, List.getElem?_modify, hgx, hx]

theorem lookupTrav_updateTrav_self {S : SimplexD} {gi ti : Nat} {tv : TravD}
    (f : TravD → TravD) (h : lookupTrav S gi ti = some tv) :
    lookupTrav (updateTrav S gi ti f) gi ti = some (f tv) := by
  rw [lookupTrav] at h
  cases hg : S.traversalGroups.get? gi with
  | none => rw [hg] at h; cases h
  | some gr =>
      rw [hg] at h
      simp only [Option.some_bind] at h
      have hgx : S.traversalGroups[gi]? = some gr := by simpa using hg
      have hx : gr.items[ti]? = some tv := by simpa using h
      simp [lookupTrav, updateTrav, List.getElem?_modify, hgx, hx]

/-- **C10.** For every numeric edit through `setData` with the edit role
— column 1 on a Slider, ComboPair, or TravPair, or column 2 on a
ProgPair — the item's value is mutated to the new value, yet the call
returns `false` and emits no `dataChanged`; and the only edits returning
`true` are column-0 check-state edits on Slider/Combo/Traversal and
column-0 name edits on Slider/Combo/Traversal/ProgPair (each of which
also emits `dataChanged`, which always coincides with the return
value). -/
theorem c10_numeric_edits_silent (S : SimplexD) (n : Int) :
    (∀ gi si sl, lookupSlider S gi si = some sl →
      setDataModel S (Item.ctrlItem (Ctrl.slider gi si)) 1 (QVal.num n) Role.editRole =
        ((updateSlider S gi si fun s2 => { s2 with value := n }), false, false) ∧
      sliderValueAt (setDataModel S (Item.ctrlItem (Ctrl.slider gi si)) 1 (QVal.num n)
        Role.editRole).1 gi si = some n) ∧
    (∀ gi ci pi cb p, lookupCombo S gi ci = some cb → cb.pairs.get? pi = some p →
      (setDataModel S (Item.comboPairItem gi ci pi) 1 (QVal.num n) Role.editRole).2 =
        (false, false) ∧
      comboPairValueAt (setDataModel S (Item.comboPairItem gi ci pi) 1 (QVal.num n)
        Role.editRole).1 gi ci pi = some n) ∧
    (∀ gi ti slot tv, lookupTrav S gi ti = some tv →
      (setDataModel S (Item.travPairItem gi ti slot) 1 (QVal.num n) Role.editRole).2 =
        (false, false) ∧
      travPairValueAt (setDataModel S (Item.travPairItem gi ti slot) 1 (QVal.num n)
        Role.editRole).1 gi ti slot = some n) ∧
    (∀ c pi pr p, ctrlProg S c = some pr → pr.pairs.get? pi = some p →
      (setDataModel S (Item.progPairItem c pi) 2 (QVal.num n) Role.editRole).2 =
        (false, false) ∧
      progPairValueAt (setDataModel S (Item.progPairItem c pi) 2 (QVal.num n)
        Role.editRole).1 c pi = some n) ∧
    (∀ item col v role,
      ((setDataModel S item col v role).2.1 = true ↔
        ((role = Role.checkStateRole ∧ col = 0 ∧ isCtrlItem item = true) ∨
          (role = Role.editRole ∧ col = 0 ∧
            (isCtrlItem item = true ∨ isProgPairItem item = true)))) ∧
      (setDataModel S item col v role).2.2 = (setDataModel S item col v role).2.1) := by
  refine ⟨?_, ?_, ?_, ?_, ?_⟩
  · intro gi si sl h
    refine ⟨rfl, ?_⟩
    simp [sliderValueAt, setDataModel, QVal.asInt, lookupSlider_updateSlider_self _ h]
  · intro gi ci pi cb p h hp
    refine ⟨rfl, ?_⟩
    have hpx : cb.pairs[pi]? = some p := by simpa using hp
    simp [comboPairValueAt, setDataModel, updateComboPair, QVal.asInt,
      lookupCombo_updateCombo_self _ h, List.getElem?_modify, hpx]
  · intro gi ti slot tv h
    refine ⟨rfl, ?_⟩
    cases slot <;>
      simp [travPairValueAt, setDataModel, updateTravPair, QVal.asInt,
        lookupTrav_updateTrav_self _ h, travSlotPair]
  · intro c pi pr p hpr hp
    have hpx : pr.pairs[pi]? = some p := by simpa using hp
    cases c with
    | slider gi si =>
        rw [ctrlProg] at hpr
        cases hsl : lookupSlider S gi si with
        | none => rw [hsl] at hpr; cases hpr
        | some sl =>
            rw [hsl] at hpr
            have hpr2 : sl.prog = pr := by simpa using hpr
            refine ⟨rfl, ?_⟩
            simp [progPairValueAt, setDataModel, updateProgPair, ctrlProg, QVal.asInt,
              lookupSlider_updateSlider_self _ hsl, updatePairs, hpr2,
              List.getElem?_modify, hpx]
    | combo gi ci =>
        rw [ctrlProg] at hpr
        cases hcb : lookupCombo S gi ci with
        | none => rw [hcb] at hpr; cases hpr
        | some cb =>
            rw [hcb] at hpr
            have hpr2 : cb.prog = pr := by simpa using hpr
            refine ⟨rfl, ?_⟩
            simp [progPairValueAt, setDataModel, updateProgPair, ctrlProg, QVal.asInt,
              lookupCombo_updateCombo_self _ hcb, updatePairs, hpr2,
              List.getElem?_modify, hpx]
    | trav gi ti =>
        rw [ctrlProg] at hpr
        cases htv : lookupTrav S gi ti with
        | none => rw [htv] at hpr; cases hpr
        | some tv =>
            rw [htv] at hpr
            have hpr2 : tv.prog = pr := by simpa using hpr
            refine ⟨rfl, ?_⟩
            simp [progPairValueAt, setDataModel, updateProgPair, ctrlProg, QVal.asInt,
              lookupTrav_updateTrav_self _ htv, updatePairs, hpr2,
              List.getElem?_modify, hpx]
  · intro item col v role
    cases role with
    | displayRole => simp [setDataModel]
    | checkStateRole =>
        by_cases h0 : col = 0
        · subst h0
          cases item with
          | simplexItem => simp [setDataModel, isCtrlItem, isProgPairItem]
          | groupItem g => simp [setDataModel, isCtrlItem, isProgPairItem]
          | ctrlItem c => cases c <;> simp [setDataModel, isCtrlItem, isProgPairItem]
          | comboPairItem gi ci pi => simp [setDataModel, isCtrlItem, isProgPairItem]
          | travPairItem gi ti slot => simp [setDataModel, isCtrlItem, isProgPairItem]
          | progressionItem c => simp [setDataModel, isCtrlItem, isProgPairItem]
          | progPairItem c pi => simp [setDataModel, isCtrlItem, isProgPairItem]
        · simp [setDataModel, h0]
    | editRole =>
        by_cases h0 : col = 0
        · subst h0
          cases item with
          | simplexItem => simp [setDataModel, isCtrlItem, isProgPairItem]
          | groupItem g => simp [setDataModel, isCtrlItem, isProgPairItem]
          | ctrlItem c => cases c <;> simp [setDataModel, isCtrlItem, isProgPairItem]
          | comboPairItem gi ci pi => simp [setDataModel, isCtrlItem, isProgPairItem]
          | travPairItem gi ti slot => simp [setDataModel, isCtrlItem, isProgPairItem]
          | progressionItem c => simp [setDataModel, isCtrlItem, isProgPairItem]
          | progPairItem c pi => simp [setDataModel, isCtrlItem, isProgPairItem]
        · by_cases h1 : col = 1
          · subst h1
            cases item with
            | simplexItem => simp [setDataModel, isCtrlItem, isProgPairItem]
            | groupItem g => simp [setDataModel, isCtrlItem, isProgPairItem]
            | ctrlItem c => cases c <;> simp [setDataModel, isCtrlItem, isProgPairItem]
            | comboPairItem gi ci pi => simp [setDataModel, isCtrlItem, isProgPairItem]
            | travPairItem gi ti slot => simp [setDataModel, isCtrlItem, isProgPairItem]
            | progressionItem c => simp [setDataModel, isCtrlItem, isProgPairItem]
            | progPairItem c pi => simp [setDataModel, isCtrlItem, isProgPairItem]
          · by_cases h2 : col = 2
            · subst h2
              cases item with
              | simplexItem => simp [setDataModel, isCtrlItem, isProgPairItem]
              | groupItem g => simp [setDataModel, isCtrlItem, isProgPairItem]
              | ctrlItem c => cases c <;> simp [setDataModel, isCtrlItem, isProgPairItem]
              | comboPairItem gi ci pi => simp [setDataModel, isCtrlItem, isProgPairItem]
              | travPairItem gi ti slot => simp [setDataModel, isCtrlItem, isProgPairItem]
              | progressionItem c => simp [setDataModel, isCtrlItem, isProgPairItem]
              | progPairItem c pi => simp [setDataModel, isCtrlItem, isProgPairItem]
            · simp [setDataModel, h0, h1, h2]

/-- Witness for C10 on `exS8`: the column-1 numeric edit on a slider
mutates the value, returns `false` and emits nothing, while the column-0
name edit returns `true`. -/
theorem c10_numeric_edits_silent_witness :
    (setDataModel exS8 (Item.ctrlItem (Ctrl.slider 0 0)) 1 (QVal.num 5) Role.editRole).2 =
      (false, false) ∧
    sliderValueAt (setDataModel exS8 (Item.ctrlItem (Ctrl.slider 0 0)) 1 (QVal.num 5)
      Role.editRole).1 0 0 = some 5 ∧
    (setDataModel exS8 (Item.ctrlItem (Ctrl.slider 0 0)) 0 (QVal.str "renamed")
      Role.editRole).2.1 = true := by
  obtain ⟨h1, h2, h3, h4, h5⟩ := c10_numeric_edits_silent exS8 5
  obtain ⟨ha, hb⟩ := h1 0 0 ⟨"sliderA", 0, true, progA8⟩ rfl
  refine ⟨?_, hb, ?_⟩
  · rw [ha]
  · exact (h5 (Item.ctrlItem (Ctrl.slider 0 0)) 0 (QVal.str "renamed") Role.editRole).1.mpr
      (Or.inr ⟨rfl, rfl, Or.inl rfl⟩)

end SimplexUI
